import Mathlib

/-!
Verification of the dialogue-extraction and caching pipeline of the
Zendesk Auto-QA service (src/main.py).

The development shallowly embeds the parts of the program the claims are
about: the JSON (de)serialization used by the Redis cache layer
(`json.dumps` / `json.loads` with CPython defaults, on the flat record
shapes the service actually stores), the audit-log data model, the
transcript extractor and agent resolver (`parse_ticket_data`), the two
Zendesk fetches (`get_zendesk_data`), the Gemini wrappers
(`run_summary_ai`, `run_evaluation_ai`), and the three endpoints
(`get_summary`, `evaluate_ticket`, `get_errors`).  External collaborators
(HTTP, Gemini, the wall clock) are passed in as explicit outcome values.
-/

set_option maxRecDepth 4000

deriving instance DecidableEq for Except

namespace ZQA

/-- One item of a `ChatStartedEvent` history list, with the keys
`parse_ticket_data` reads.  `none` models an absent key (or an explicit
`null`, which the code coerces the same way where it reads these). -/
structure HistoryItem where
  itemType : Option String
  message : Option String
  actor_type : Option String
  name : Option String
  actor_name : Option String
  author_id : Option Int
  deriving DecidableEq

/-- Python scalar or small-dict values appearing in the Zendesk payload
fields the service reads (ticket/audit `assignee` and `assignee_id`,
event `value`).  `vdict none` models an empty dict, `vdict (some hs)` a
dict whose `history` key holds the list `hs`. -/
inductive PyVal where
  | vint (n : Int)
  | vstr (s : String)
  | vdict (history : Option (List HistoryItem))
  deriving DecidableEq

/-- Python truthiness of such a value. -/
def PyVal.truthy : PyVal → Bool
  | .vint n => n != 0
  | .vstr s => !s.data.isEmpty
  | .vdict h => h.isSome

/-- Truthiness of an optional value; `None` (absent key) is falsy. -/
def optTruthy (v : Option PyVal) : Bool :=
  (v.map PyVal.truthy).getD false

/-- Python `a or b` on two optional values. -/
def pyOr (a b : Option PyVal) : Option PyVal :=
  if optTruthy a then a else b

/-- Python `a or b` on optional strings (`None` and `""` are falsy). -/
def pyOrS (a b : Option String) : Option String :=
  match a with
  | some s => if s.data.isEmpty then b else some s
  | none => b

/-- JSON values occurring in the records the service serializes into
Redis: null, integers, strings and arrays of strings.  (The stored
summary and evaluation dicts contain no other shapes.) -/
inductive Prim where
  | pnull
  | pint (n : Int)
  | pstr (s : String)
  | parr (xs : List String)
  deriving DecidableEq

/-- Python truthiness of a JSON value, as `d.get("errors")` is tested. -/
def Prim.truthy : Prim → Bool
  | .pnull => false
  | .pint n => n != 0
  | .pstr s => !s.data.isEmpty
  | .parr xs => !xs.isEmpty

/-- A Python dict with string keys, in insertion order. -/
abbrev PyDict := List (String × Prim)

/-- Python dict lookup `d.get(k)`. -/
def dictGet (d : PyDict) (k : String) : Option Prim :=
  (d.find? (fun kv => kv.1 == k)).map (·.2)

/-- Python dict assignment `d[k] = v`: replaces the value in place when
the key exists (keeping its position), otherwise appends. -/
def dictSet (d : PyDict) (k : String) (v : Prim) : PyDict :=
  if d.any (fun kv => kv.1 == k) then
    d.map (fun kv => if kv.1 == k then (k, v) else kv)
  else d ++ [(k, v)]

/-- Python `d.update(us)`: assign the pairs of `us` left to right. -/
def dictUpdate (d : PyDict) (us : PyDict) : PyDict :=
  us.foldl (fun acc kv => dictSet acc kv.1 kv.2) d

/-! ### json.dumps, with the CPython defaults the service uses
(`ensure_ascii=True`, separators `", "` and `": "`). -/

def lbrace : Char := Char.ofNat 123

def rbrace : Char := Char.ofNat 125

/-- Lower-case hex digit, as CPython writes \uXXXX escapes. -/
def hexDigitCh (n : Nat) : Char :=
  if n < 10 then Char.ofNat (48 + n) else Char.ofNat (87 + n)

/-- Four lower-case hex digits of `n < 65536`, most significant first. -/
def hex4 (n : Nat) : List Char :=
  [hexDigitCh (n / 4096 % 16), hexDigitCh (n / 256 % 16),
   hexDigitCh (n / 16 % 16), hexDigitCh (n % 16)]

/-- `json.dumps` escaping of one character with `ensure_ascii=True`:
quote and backslash get two-character escapes, the five short control
escapes are used, any other character outside printable ASCII becomes
`\uXXXX` (a surrogate pair beyond the basic plane), and printable ASCII
stays as is. -/
def escChar (c : Char) : List Char :=
  if c = '"' then ['\\', '"']
  else if c = '\\' then ['\\', '\\']
  else if c = Char.ofNat 8 then ['\\', 'b']
  else if c = Char.ofNat 9 then ['\\', 't']
  else if c = Char.ofNat 10 then ['\\', 'n']
  else if c = Char.ofNat 12 then ['\\', 'f']
  else if c = Char.ofNat 13 then ['\\', 'r']
  else if 32 ≤ c.toNat ∧ c.toNat ≤ 126 then [c]
  else if c.toNat < 65536 then '\\' :: 'u' :: hex4 c.toNat
  else ('\\' :: 'u' :: hex4 (55296 + (c.toNat - 65536) / 1024)) ++
       ('\\' :: 'u' :: hex4 (56320 + (c.toNat - 65536) % 1024))

/-- The characters `json.dumps` writes for a string. -/
def escStrChars (s : String) : List Char :=
  '"' :: (s.data.flatMap escChar ++ ['"'])

/-- Decimal digits, fuelled so that the kernel can evaluate it; any fuel
above `n` is enough. -/
def natDigsF : Nat → Nat → List Char
  | 0, _ => []
  | fuel + 1, n =>
    if n < 10 then [Char.ofNat (48 + n)]
    else natDigsF fuel (n / 10) ++ [Char.ofNat (48 + n % 10)]

/-- Decimal digits of a natural number, as Python prints it. -/
def natDigs (n : Nat) : List Char :=
  natDigsF (n + 1) n

/-- Python `str` of an int. -/
def intDigs (i : Int) : List Char :=
  if i < 0 then '-' :: natDigs i.natAbs else natDigs i.toNat

/-- Join chunks with a separator. -/
def joinSep (sep : List Char) : List (List Char) → List Char
  | [] => []
  | [x] => x
  | x :: y :: xs => x ++ sep ++ joinSep sep (y :: xs)

/-- The characters `json.dumps` writes for one of our JSON values. -/
def dumpsPrim : Prim → List Char
  | .pnull => ['n', 'u', 'l', 'l']
  | .pint n => intDigs n
  | .pstr s => escStrChars s
  | .parr xs => '[' :: (joinSep [',', ' '] (xs.map escStrChars) ++ [']'])

/-- The characters `json.dumps` writes for a dict. -/
def dumpsObjChars (d : PyDict) : List Char :=
  lbrace ::
    (joinSep [',', ' ']
      (d.map (fun kv => escStrChars kv.1 ++ [':', ' '] ++ dumpsPrim kv.2)) ++ [rbrace])

/-- `json.dumps` of a record dict, as the service stores it in Redis. -/
def dumpsObj (d : PyDict) : String :=
  String.mk (dumpsObjChars d)

/-! ### json.loads, on the texts the service writes
The parser below handles exactly the JSON fragment `dumpsObj` emits
(which is all the cache ever holds); on that fragment it computes the
same dict CPython's `json.loads` computes, including surrogate-pair
recombination and duplicate-key collapse. -/

def isDigitCh (c : Char) : Bool := 48 ≤ c.toNat && c.toNat ≤ 57

def fromHexDigit (c : Char) : Option Nat :=
  if 48 ≤ c.toNat && c.toNat ≤ 57 then some (c.toNat - 48)
  else if 97 ≤ c.toNat && c.toNat ≤ 102 then some (c.toNat - 87)
  else if 65 ≤ c.toNat && c.toNat ≤ 70 then some (c.toNat - 55)
  else none

def parseHex4 : List Char → Option (Nat × List Char)
  | a :: b :: c :: d :: rest =>
    match fromHexDigit a, fromHexDigit b, fromHexDigit c, fromHexDigit d with
    | some x, some y, some z, some w => some (x * 4096 + y * 256 + z * 16 + w, rest)
    | _, _, _, _ => none
  | _ => none

/-- Parse the body of a JSON string after the opening quote, undoing the
escapes `json.dumps` produces.  A `\uXXXX` high surrogate must be
followed by a low surrogate (a lone surrogate is not a Unicode scalar
value and never appears in `dumpsObj` output).  Any fuel larger than the
input length is enough. -/
def parseStrBody : Nat → List Char → Option (List Char × List Char)
  | 0, _ => none
  | _ + 1, [] => none
  | fuel + 1, c :: rest =>
    if c = '"' then some ([], rest)
    else if c = '\\' then
      match rest with
      | [] => none
      | e :: rest2 =>
        if e = '"' then (parseStrBody fuel rest2).map (fun p => ('"' :: p.1, p.2))
        else if e = '\\' then (parseStrBody fuel rest2).map (fun p => ('\\' :: p.1, p.2))
        else if e = '/' then (parseStrBody fuel rest2).map (fun p => ('/' :: p.1, p.2))
        else if e = 'b' then (parseStrBody fuel rest2).map (fun p => (Char.ofNat 8 :: p.1, p.2))
        else if e = 't' then (parseStrBody fuel rest2).map (fun p => (Char.ofNat 9 :: p.1, p.2))
        else if e = 'n' then (parseStrBody fuel rest2).map (fun p => (Char.ofNat 10 :: p.1, p.2))
        else if e = 'f' then (parseStrBody fuel rest2).map (fun p => (Char.ofNat 12 :: p.1, p.2))
        else if e = 'r' then (parseStrBody fuel rest2).map (fun p => (Char.ofNat 13 :: p.1, p.2))
        else if e = 'u' then
          match parseHex4 rest2 with
          | some (n, rest3) =>
            if 55296 ≤ n && n ≤ 56319 then
              match rest3 with
              | '\\' :: 'u' :: rest4 =>
                match parseHex4 rest4 with
                | some (m, rest5) =>
                  if 56320 ≤ m && m ≤ 57343 then
                    (parseStrBody fuel rest5).map
                      (fun p => (Char.ofNat (65536 + (n - 55296) * 1024 + (m - 56320)) :: p.1, p.2))
                  else none
                | none => none
              | _ => none
            else if 56320 ≤ n && n ≤ 57343 then none
            else (parseStrBody fuel rest3).map (fun p => (Char.ofNat n :: p.1, p.2))
          | none => none
        else none
    else (parseStrBody fuel rest).map (fun p => (c :: p.1, p.2))

/-- Parse a JSON string literal including its opening quote. -/
def parseJStr (fuel : Nat) : List Char → Option (String × List Char)
  | '"' :: rest => (parseStrBody fuel rest).map (fun p => (String.mk p.1, p.2))
  | _ => none

/-- Consume a maximal run of decimal digits, accumulating their value. -/
def parseDigits : Nat → List Char → Nat × List Char
  | acc, c :: rest =>
    if isDigitCh c then parseDigits (acc * 10 + (c.toNat - 48)) rest else (acc, c :: rest)
  | acc, [] => (acc, [])

def parseNat (cs : List Char) : Option (Nat × List Char) :=
  match cs with
  | c :: _ => if isDigitCh c then some (parseDigits 0 cs) else none
  | [] => none

def parseInt (cs : List Char) : Option (Int × List Char) :=
  match cs with
  | [] => none
  | c :: rest =>
    if c = '-' then (parseNat rest).map (fun p => (-(p.1 : Int), p.2))
    else (parseNat (c :: rest)).map (fun p => ((p.1 : Int), p.2))

/-- Parse the elements of a string array after the first element.  Any
fuel above the number of remaining elements is enough. -/
def parseArrMore : Nat → List Char → Option (List String × List Char)
  | _, [] => none
  | 0, _ => none
  | f + 1, c :: rest =>
    if c = ']' then some ([], rest)
    else if c = ',' then
      match rest with
      | ' ' :: rest2 =>
        match parseJStr (f + 1) rest2 with
        | some (s, r) => (parseArrMore f r).map (fun p => (s :: p.1, p.2))
        | none => none
      | _ => none
    else none

/-- Parse the body of a string array after the opening bracket. -/
def parseArrBody (fuel : Nat) (cs : List Char) : Option (List String × List Char) :=
  match cs with
  | [] => none
  | c :: rest =>
    if c = ']' then some ([], rest)
    else
      match parseJStr fuel (c :: rest) with
      | some (s, r) => (parseArrMore fuel r).map (fun p => (s :: p.1, p.2))
      | none => none

/-- Parse one JSON value of the fragment the service stores. -/
def parsePrim (fuel : Nat) (cs : List Char) : Option (Prim × List Char) :=
  match cs with
  | [] => none
  | c :: rest =>
    if c = '"' then (parseStrBody fuel rest).map (fun p => (Prim.pstr (String.mk p.1), p.2))
    else if c = '[' then (parseArrBody fuel rest).map (fun p => (Prim.parr p.1, p.2))
    else if c = 'n' then
      match rest with
      | 'u' :: 'l' :: 'l' :: rest2 => some (Prim.pnull, rest2)
      | _ => none
    else (parseInt (c :: rest)).map (fun p => (Prim.pint p.1, p.2))

/-- Parse one `"key": value` pair. -/
def parsePair (fuel : Nat) (cs : List Char) : Option ((String × Prim) × List Char) :=
  match parseJStr fuel cs with
  | some (k, r) =>
    match r with
    | ':' :: ' ' :: r2 =>
      match parsePrim fuel r2 with
      | some (v, r3) => some ((k, v), r3)
      | none => none
    | _ => none
  | none => none

/-- Parse the pairs of an object after the first pair.  Any fuel above
the number of remaining pairs is enough. -/
def parseObjMore : Nat → List Char → Option (PyDict × List Char)
  | _, [] => none
  | 0, _ => none
  | f + 1, c :: rest =>
    if c = rbrace then some ([], rest)
    else if c = ',' then
      match rest with
      | ' ' :: rest2 =>
        match parsePair (f + 1) rest2 with
        | some (kv, r) => (parseObjMore f r).map (fun p => (kv :: p.1, p.2))
        | none => none
      | _ => none
    else none

/-- Parse the body of an object after the opening brace. -/
def parseObjBody (fuel : Nat) (cs : List Char) : Option (PyDict × List Char) :=
  match cs with
  | [] => none
  | c :: rest =>
    if c = rbrace then some ([], rest)
    else
      match parsePair fuel (c :: rest) with
      | some (kv, r) => (parseObjMore fuel r).map (fun p => (kv :: p.1, p.2))
      | none => none

/-- `json.loads` on a cached record text: parse a single object and build
the dict as Python does, later duplicate keys overwriting earlier ones. -/
def loadsObj (s : String) : Option PyDict :=
  match s.data with
  | [] => none
  | c :: rest =>
    if c = lbrace then
      match parseObjBody s.data.length rest with
      | some (kvs, r) =>
        if r = [] then some (kvs.foldl (fun d kv => dictSet d kv.1 kv.2) []) else none
      | none => none
    else none

/-! ### Measures and decompositions used to reason about the parser -/

/-- Total length of the strings of a list. -/
def strLens (xs : List String) : Nat :=
  (xs.map (fun x => x.data.length)).sum

/-- A crude size of a JSON value, bounding the parser fuel it needs. -/
def primSize : Prim → Nat
  | .pnull => 1
  | .pint _ => 1
  | .pstr s => s.data.length + 1
  | .parr xs => xs.length + strLens xs + 1

/-- Fuel bound for parsing an object. -/
def objSize (d : PyDict) : Nat :=
  d.length + (d.map (fun kv => kv.1.data.length + primSize kv.2)).sum

/-- The characters of the second and later elements of a dumped array. -/
def joinMoreStr (xs : List String) : List Char :=
  xs.flatMap (fun x => ',' :: ' ' :: escStrChars x)

/-- The characters of one dumped `"key": value` pair. -/
def pairChars (kv : String × Prim) : List Char :=
  escStrChars kv.1 ++ [':', ' '] ++ dumpsPrim kv.2

/-- The characters of the second and later pairs of a dumped object. -/
def objMoreChars (d : PyDict) : List Char :=
  d.flatMap (fun kv => ',' :: ' ' :: pairChars kv)

/-- The input does not start with a decimal digit (so a preceding maximal
digit run stops exactly there). -/
def notDigitHead (cs : List Char) : Prop :=
  ∀ c, cs.head? = some c → isDigitCh c = false

/-! ### Data model of the Zendesk payload (the keys the code reads) -/

/-- A user record from the `users` side-load; `u["id"]` and `u["name"]`
are accessed unconditionally. -/
structure User where
  id : Int
  name : String
  deriving DecidableEq

/-- An audit event, with the keys `parse_ticket_data` reads.
`historyTop` is the top-level `history` key (`some hs` when the key
exists).  A non-dict `value` on a `ChatStartedEvent` would raise in
Python; the claims only concern well-formed events, modelled as yielding
no history. -/
structure Event where
  eventType : Option String
  value : Option PyVal
  historyTop : Option (List HistoryItem)
  field_name : Option String
  public : Option Bool
  plain_body : Option String
  body : Option String
  author_id : Option Int
  deriving DecidableEq

/-- One audit block. -/
structure Audit where
  assignee : Option PyVal
  assignee_id : Option PyVal
  events : List Event
  deriving DecidableEq

/-- Ticket metadata (the two assignee keys the resolver reads). -/
structure Ticket where
  assignee : Option PyVal
  assignee_id : Option PyVal
  deriving DecidableEq

/-- The combined structure `get_zendesk_data` returns. -/
structure ZData where
  ticket : Ticket
  users : List User
  audits : List Audit
  deriving DecidableEq

/-! ### parse_ticket_data (src/main.py lines 192-270) -/

/-- The configured bot-noise ignore list (`IGNORE`). -/
def IGNORE : List String :=
  ["Mutaxassisni chaqirish", "Main Menu", "Start Chat", "Bot started"]

/-- Whitespace stripped by Python `str.strip` (the ASCII part; the
service's payloads contain no exotic Unicode whitespace). -/
def isSpaceCh (c : Char) : Bool :=
  c = ' ' || c = Char.ofNat 9 || c = Char.ofNat 10 || c = Char.ofNat 11 ||
  c = Char.ofNat 12 || c = Char.ofNat 13

/-- Python `s.strip()`. -/
def pyStrip (s : String) : String :=
  String.mk (((s.data.dropWhile isSpaceCh).reverse.dropWhile isSpaceCh).reverse)

/-- The `user_map` dict comprehension over `users`: maps `u["id"]` to
`u["name"]`, later entries overwriting earlier ones. -/
def userMapGet (users : List User) (i : Int) : Option String :=
  (users.reverse.find? (fun u => u.id == i)).map (·.name)

/-- History of a `ChatStartedEvent`:
`ev.get("value", ...).get("history", [])`, falling back to a top-level
`history` key when that list is empty and the key exists. -/
def chatHistory (ev : Event) : List HistoryItem :=
  let hist : List HistoryItem :=
    match ev.value with
    | some (.vdict (some hs)) => hs
    | _ => []
  if hist.isEmpty then
    match ev.historyTop with
    | some hs => hs
    | none => hist
  else hist

/-- Python substring test `p in l` on character lists. -/
def listInfix (p : List Char) : List Char → Bool
  | [] => p.isEmpty
  | c :: rest => p.isPrefixOf (c :: rest) || listInfix p rest

/-- Processing of one history item inside the `ChatStartedEvent` branch:
the transcript line it contributes, if any.  Items whose `type` is not
`ChatMessage` are skipped, the message is stripped, empty or ignore-listed
text is skipped (substring match, as Python `x in msg`), the display name
prefers a `user_map` hit on `author_id` over the inline `name` /
`actor_name` / `"User"` chain, and the role tag is CLIENT exactly for
`actor_type == "end-user"`, AGENT for everything else. -/
def histLine (users : List User) (h : HistoryItem) : Option String :=
  if h.itemType ≠ some "ChatMessage" then none
  else
    let msg := pyStrip (h.message.getD "")
    if msg.data.isEmpty || IGNORE.any (fun x => listInfix x.data msg.data) then none
    else
      let d0 := (pyOrS h.name (pyOrS h.actor_name (some "User"))).getD "User"
      let dName :=
        match h.author_id with
        | some aid =>
          if aid != 0 && (userMapGet users aid).isSome then (userMapGet users aid).getD d0
          else d0
        | none => d0
      let tag :=
        if h.actor_type = some "end-user" then "CLIENT (" ++ dName ++ ")"
        else "AGENT (" ++ dName ++ ")"
      some (tag ++ ": " ++ msg)

/-- Processing of a `Comment` event: emits a line only when the event is
public and `plain_body or body` is a non-empty string; the author name is
the `user_map` entry for `author_id`, defaulting to `"AGENT"`. -/
def commentLine (users : List User) (ev : Event) : Option String :=
  if ev.public.getD false then
    match pyOrS ev.plain_body ev.body with
    | some b =>
      if b.data.isEmpty then none
      else
        let authorName :=
          match ev.author_id with
          | some aid => (userMapGet users aid).getD "AGENT"
          | none => "AGENT"
        some (authorName ++ ": " ++ b)
    | none => none
  else none

/-- The transcript lines one event contributes (the body of the event
loop in `parse_ticket_data`). -/
def eventMessages (users : List User) (ev : Event) : List String :=
  if ev.eventType = some "ChatStartedEvent" then
    (chatHistory ev).filterMap (histLine users)
  else if ev.eventType = some "Comment" then
    (commentLine users ev).toList
  else []

/-- All transcript lines, audits in order, events in order. -/
def transcriptMessages (d : ZData) : List String :=
  d.audits.flatMap (fun a => a.events.flatMap (eventMessages d.users))

/-- The lines contributed by `Comment` events alone, in audit order. -/
def publicCommentMessages (d : ZData) : List String :=
  d.audits.flatMap (fun a => a.events.flatMap (fun ev =>
    if ev.eventType = some "Comment" then (commentLine d.users ev).toList else []))

/-- All chat history items of the log, in audit order. -/
def allChatItems (d : ZData) : List HistoryItem :=
  d.audits.flatMap (fun a => a.events.flatMap chatHistory)

/-- The inner event scan of the assignee fallback: the first event whose
`field_name` is `assignee` or `assignee_id` and whose `value` is truthy. -/
def findAssigneeInEvents : List Event → Option PyVal
  | [] => none
  | ev :: rest =>
    if (ev.field_name == some "assignee" || ev.field_name == some "assignee_id")
        && optTruthy ev.value then
      ev.value
    else findAssigneeInEvents rest

/-- The audit scan of the assignee fallback (the code iterates
`reversed(audits)`; this function receives that reversed list): per
audit, the audit's own `assignee`, then its `assignee_id`, then the
event scan; the first audit yielding a truthy value wins. -/
def findAssigneeInAudits : List Audit → Option PyVal
  | [] => none
  | a :: rest =>
    if optTruthy a.assignee then a.assignee
    else if optTruthy a.assignee_id then a.assignee_id
    else
      match findAssigneeInEvents a.events with
      | some v => some v
      | none => findAssigneeInAudits rest

/-- What one audit yields in the assignee fallback scan: its own
`assignee`, then its `assignee_id`, then the first matching field-change
event. -/
def auditAssignee (a : Audit) : Option PyVal :=
  if optTruthy a.assignee then a.assignee
  else if optTruthy a.assignee_id then a.assignee_id
  else findAssigneeInEvents a.events

/-- Python `int(v)`: ints pass through, strings parse as optionally
signed decimal after stripping whitespace (`ValueError` otherwise),
anything else raises. -/
def valToInt : PyVal → Option Int
  | .vint n => some n
  | .vstr s =>
    match (pyStrip s).data with
    | '+' :: rest =>
      match parseNat rest with
      | some (n, []) => some (n : Int)
      | _ => none
    | cs =>
      match parseInt cs with
      | some (i, []) => some i
      | _ => none
  | .vdict _ => none

/-- Join transcript lines with newlines (`"\n".join(messages)`). -/
def joinNl : List String → String
  | [] => ""
  | [x] => x
  | x :: y :: xs => x ++ "\n" ++ joinNl (y :: xs)

/-- The triple `parse_ticket_data` returns. -/
structure ParseOut where
  dialogue : String
  agent_name : String
  assignee : Option PyVal
  deriving DecidableEq

/-- Shallow embedding of `parse_ticket_data`: resolve the assignee
(ticket header first, else most recent audit), resolve the agent name
through the user list (first match, as the Python loop breaks), and
collect the dialogue. -/
def parse_ticket_data (d : ZData) : ParseOut :=
  let a0 := pyOr d.ticket.assignee d.ticket.assignee_id
  let assignee :=
    if optTruthy a0 then a0
    else
      match findAssigneeInAudits d.audits.reverse with
      | some v => some v
      | none => a0
  let agent_name :=
    if optTruthy assignee then
      match assignee with
      | some v =>
        match valToInt v with
        | some tid =>
          match d.users.find? (fun u => u.id == tid) with
          | some u => u.name
          | none => "Unknown Agent"
        | none => "Unknown Agent"
      | none => "Unknown Agent"
    else "Unknown Agent"
  ⟨joinNl (transcriptMessages d), agent_name, assignee⟩

/-! ### get_zendesk_data (src/main.py lines 149-190) -/

/-- A FastAPI `HTTPException` as the caller observes it. -/
structure HTTPError where
  status_code : Nat
  detail : String
  deriving DecidableEq

/-- The parsed body of the metadata response:
`ticket_data.get("ticket", ...)` and `ticket_data.get("users", [])`. -/
structure TicketBody where
  ticket : Ticket
  users : List User
  deriving DecidableEq

/-- Outcome of the `requests.get` for ticket metadata: a response with a
status code and (when its text parses as JSON) a body, or a raised
transport exception. -/
inductive MetaOutcome where
  | resp (status : Nat) (body : Option TicketBody)
  | exc (msg : String)
  deriving DecidableEq

/-- Outcome of the `requests.get` for the audit log. -/
inductive AuditsOutcome where
  | resp (status : Nat) (body : Option (List Audit))
  | exc (msg : String)
  deriving DecidableEq

/-- An exception raised inside the metadata `try` block: one of the two
`HTTPException`s the code raises itself, or a library exception
(transport error, timeout, `resp.json()` failure). -/
inductive MetaExc where
  | httpExc (e : HTTPError)
  | otherExc (msg : String)
  deriving DecidableEq

/-- Body of the metadata `try` block (lines 160-166): status 404 raises
`HTTPException(404, "Ticket not found")`, any other non-200 status raises
`HTTPException(500, "Zendesk API Error")`, and the request or JSON decode
may raise a library exception. -/
def metaTryBody : MetaOutcome → Except MetaExc TicketBody
  | .exc m => .error (.otherExc m)
  | .resp s b =>
    if s = 404 then .error (.httpExc ⟨404, "Ticket not found"⟩)
    else if s ≠ 200 then .error (.httpExc ⟨500, "Zendesk API Error"⟩)
    else
      match b with
      | some tb => .ok tb
      | none => .error (.otherExc "JSONDecodeError")

/-- The metadata fetch as a whole: `except Exception` catches every
exception raised in the `try` block — `HTTPException` is a subclass of
`Exception`, so the two exceptions raised inside the block are caught
too — and replaces it with `HTTPException(500, "Network Error")`. -/
def metadataResult (m : MetaOutcome) : Except HTTPError TicketBody :=
  match metaTryBody m with
  | .ok tb => .ok tb
  | .error _ => .error ⟨500, "Network Error"⟩

/-- The audit fetch (lines 172-183): only a 200 response with a parsable
body yields audits; any other status, transport error or decode failure
degrades to the empty list. -/
def auditsList : AuditsOutcome → List Audit
  | .resp 200 (some l) => l
  | _ => []

/-- Shallow embedding of `get_zendesk_data`. -/
def get_zendesk_data (m : MetaOutcome) (a : AuditsOutcome) : Except HTTPError ZData :=
  match metadataResult m with
  | .error e => .error e
  | .ok tb => .ok ⟨tb.ticket, tb.users, auditsList a⟩

/-! ### The Gemini wrappers (src/main.py lines 320-341 and 343-370;
the second definition of `run_evaluation_ai` shadows the first) -/

/-- Result of one `generate_content` call followed by
`json.loads(resp.text)`: the parsed JSON dict, or the text of the
exception raised anywhere in the `try` block (transport failure,
timeout, or unparseable output). -/
abbrev AiOutcome := Except String PyDict

/-- `run_summary_ai`: on success the parsed dict, on any exception the
fallback dict with issue `"Error"` and the exception text in `result`. -/
def run_summary_ai (ticket_id : String) (ai : AiOutcome) : PyDict :=
  match ai with
  | .ok d => d
  | .error e =>
    [("ticket_id", .pstr ticket_id), ("issue", .pstr "Error"),
     ("action", .pstr "-"), ("result", .pstr e)]

/-- `run_evaluation_ai` (the second, effective definition): on success
the parsed dict with `analyzed_at` set to `str(datetime.now())`, on any
exception the fallback dict with zero scores and the exception text as
the single entry of `errors`. -/
def run_evaluation_ai (ticket_id : String) (ai : AiOutcome) (now : String) : PyDict :=
  match ai with
  | .ok d => dictSet d "analyzed_at" (.pstr now)
  | .error e =>
    [("ticket_id", .pstr ticket_id), ("language", .pstr "err"),
     ("tov_score", .pint 0), ("solution_score", .pint 0),
     ("errors", .parr [e]), ("next_action", .pstr "-"),
     ("analyzed_at", .pstr now)]

/-! ### The endpoints (src/main.py lines 374-423) -/

/-- The Redis store: key-value pairs of strings, unique keys, in
insertion order.  `none` at the call sites models Redis being
unavailable (`r = None`), in which case the service skips the cache. -/
abbrev Cache := List (String × String)

/-- `r.get(k)`. -/
def cget (c : Cache) (k : String) : Option String :=
  (c.find? (fun kv => kv.1 == k)).map (·.2)

/-- `r.set(k, v)`. -/
def cset (c : Cache) (k : String) (v : String) : Cache :=
  if c.any (fun kv => kv.1 == k) then
    c.map (fun kv => if kv.1 == k then (k, v) else kv)
  else c ++ [(k, v)]

/-- The external world of one request: the two Zendesk calls, the Gemini
call, and `str(datetime.now())`. -/
structure Env where
  meta : MetaOutcome
  audits : AuditsOutcome
  ai : AiOutcome
  now : String

/-- Which external effects a request performed: whether it called the
ticketing platform and whether it called the AI generator. -/
structure Effects where
  fetchedTicket : Bool
  calledAI : Bool
  deriving DecidableEq

/-- The guarded cache lookup at the top of each endpoint:
`if r:` then `cached = r.get(key)` then `if cached:` (an empty string is
falsy and falls through to a miss). -/
def cacheHit (r : Option Cache) (key : String) : Option String :=
  match r with
  | some c =>
    match cget c key with
    | some cached => if cached = "" then none else some cached
    | none => none
  | none => none

/-- The JSON value under which an assignee lands in a response dict.  (A
dict-valued assignee would serialize as a JSON object; no record the
claims exercise carries one, and it is modelled as null.) -/
def pyValPrim : Option PyVal → Prim
  | none => .pnull
  | some (.vint n) => .pint n
  | some (.vstr s) => .pstr s
  | some (.vdict _) => .pnull

/-- The empty-dialogue summary response (line 385), status `empty`,
never written to the cache. -/
def emptySummaryDict (tid : String) (p : ParseOut) : PyDict :=
  [("ticket_id", .pstr tid), ("assignee_id", pyValPrim p.assignee),
   ("agent_name", .pstr p.agent_name), ("issue", .pstr "Нет диалога"),
   ("action", .pstr "-"), ("result", .pstr "-"), ("status", .pstr "empty")]

/-- The empty-dialogue evaluation response (line 405). -/
def emptyEvalDict (tid : String) (p : ParseOut) : PyDict :=
  [("ticket_id", .pstr tid), ("assignee_id", pyValPrim p.assignee),
   ("agent_name", .pstr p.agent_name), ("language", .pstr "n/a"),
   ("tov_score", .pint 0), ("solution_score", .pint 0),
   ("errors", .parr ["Empty"]), ("next_action", .pstr "-"),
   ("status", .pstr "empty")]

/-- The update applied to a freshly generated record before caching. -/
def metaUpdates (tid : String) (p : ParseOut) : PyDict :=
  [("ticket_id", .pstr tid), ("assignee_id", pyValPrim p.assignee),
   ("agent_name", .pstr p.agent_name), ("status", .pstr "generated_new")]

/-- Shallow embedding of the `/summary` endpoint (`get_summary`,
lines 374-392): cache hit returns the deserialized record with status
`from_cache`; a miss fetches, parses, and either returns the
empty-dialogue record (uncached) or runs the summary AI, attaches the
metadata and status `generated_new`, caches the serialized dict, and
returns it.  The result carries the response dict, the cache after the
request, and the effects performed. -/
def get_summary (tid : String) (r : Option Cache) (env : Env) :
    Except HTTPError (PyDict × Option Cache × Effects) :=
  match cacheHit r ("summary:" ++ tid) with
  | some cached =>
    match loadsObj cached with
    | some d => .ok (dictSet d "status" (.pstr "from_cache"), r, ⟨false, false⟩)
    | none => .error ⟨500, "Internal Server Error"⟩
  | none =>
    match get_zendesk_data env.meta env.audits with
    | .error e => .error e
    | .ok data =>
      let p := parse_ticket_data data
      if p.dialogue = "" then
        .ok (emptySummaryDict tid p, r, ⟨true, false⟩)
      else
        let result := dictUpdate (run_summary_ai tid env.ai) (metaUpdates tid p)
        let r2 :=
          match r with
          | some c => some (cset c ("summary:" ++ tid) (dumpsObj result))
          | none => none
        .ok (result, r2, ⟨true, true⟩)

/-- Shallow embedding of the `/evaluate` endpoint (`evaluate_ticket`,
lines 394-411), identical in structure under the `qa:` key space. -/
def evaluate_ticket (tid : String) (r : Option Cache) (env : Env) :
    Except HTTPError (PyDict × Option Cache × Effects) :=
  match cacheHit r ("qa:" ++ tid) with
  | some cached =>
    match loadsObj cached with
    | some d => .ok (dictSet d "status" (.pstr "from_cache"), r, ⟨false, false⟩)
    | none => .error ⟨500, "Internal Server Error"⟩
  | none =>
    match get_zendesk_data env.meta env.audits with
    | .error e => .error e
    | .ok data =>
      let p := parse_ticket_data data
      if p.dialogue = "" then
        .ok (emptyEvalDict tid p, r, ⟨true, false⟩)
      else
        let result := dictUpdate (run_evaluation_ai tid env.ai env.now) (metaUpdates tid p)
        let r2 :=
          match r with
          | some c => some (cset c ("qa:" ++ tid) (dumpsObj result))
          | none => none
        .ok (result, r2, ⟨true, true⟩)

/-- What `/analytics/errors` returns. -/
inductive ErrorsOut where
  | noRedis
  | result (count : Nat) (data : List PyDict)
  deriving DecidableEq

/-- Key-pattern match of `scan_iter("qa:*")`. -/
def strHasPref (p s : String) : Bool := p.data.isPrefixOf s.data

/-- A score read `d.get(k, 5)`.  (A non-integer stored score would raise
`TypeError` in Python; the records the service stores hold integers.) -/
def scoreD (d : PyDict) (k : String) : Int :=
  match dictGet d k with
  | some (.pint n) => n
  | some _ => 5
  | none => 5

/-- The flagging condition of `/analytics/errors`:
`d.get("tov_score", 5) < 4 or d.get("solution_score", 5) < 4 or d.get("errors")`. -/
def flagged (d : PyDict) : Bool :=
  scoreD d "tov_score" < 4 || scoreD d "solution_score" < 4 ||
    (dictGet d "errors").elim false Prim.truthy

/-- Shallow embedding of `/analytics/errors` (`get_errors`,
lines 413-423): without Redis the error dict; otherwise scan the keys
under `qa:`, read and deserialize each non-empty value, and keep the
flagged records.  (An unparseable cache text would raise in Python;
every value the service stores parses.) -/
def get_errors (r : Option Cache) : ErrorsOut :=
  match r with
  | none => .noRedis
  | some c =>
    let rows := (c.map (·.1)).filterMap (fun k =>
      if strHasPref "qa:" k then
        match cget c k with
        | some v =>
          if v = "" then none
          else
            match loadsObj v with
            | some d => if flagged d then some d else none
            | none => none
        | none => none
      else none)
    .result rows.length rows

/-! ### Derived record shapes and concrete fixtures used by the claims -/

/-- The summary dict produced on an AI failure, after the endpoint merges
in ticket metadata and the `generated_new` status. -/
def sFailDict (tid e : String) (aid : Prim) (agent : String) : PyDict :=
  [("ticket_id", .pstr tid), ("issue", .pstr "Error"), ("action", .pstr "-"),
   ("result", .pstr e), ("assignee_id", aid), ("agent_name", .pstr agent),
   ("status", .pstr "generated_new")]

/-- The evaluation dict produced on an AI failure, after the endpoint
merges in ticket metadata and the `generated_new` status. -/
def eFailDict (tid e now : String) (aid : Prim) (agent : String) : PyDict :=
  [("ticket_id", .pstr tid), ("language", .pstr "err"), ("tov_score", .pint 0),
   ("solution_score", .pint 0), ("errors", .parr [e]), ("next_action", .pstr "-"),
   ("analyzed_at", .pstr now), ("assignee_id", aid), ("agent_name", .pstr agent),
   ("status", .pstr "generated_new")]

/-- An audit whose only event is a chat with one end-user message. -/
def oneChatAudit : Audit :=
  ⟨none, none, [⟨some "ChatStartedEvent",
    some (.vdict (some [⟨some "ChatMessage", some "hello", some "end-user", none, none, none⟩])),
    none, none, none, none, none, none⟩]⟩

/-- Metadata body: ticket assigned to user 1, user directory with Alice. -/
def aliceBody : TicketBody := ⟨⟨some (.vint 1), none⟩, [⟨1, "Alice"⟩]⟩

/-- Claim 1 fixture: one audit holding a chat message and a public comment. -/
def c1ChatItem : HistoryItem := ⟨some "ChatMessage", some " hello ", some "end-user", none, none, none⟩

def c1ChatEvent : Event :=
  ⟨some "ChatStartedEvent", some (.vdict (some [c1ChatItem])), none, none, none, none, none, none⟩

def c1CommentEvent : Event := ⟨some "Comment", none, none, none, some true, some "note", none, some 9⟩

def c1Data : ZData := ⟨⟨none, none⟩, [⟨9, "Igor"⟩], [⟨none, none, [c1ChatEvent, c1CommentEvent]⟩]⟩

/-- Claim 2 fixture: a chat message whose actor role is neither `end-user` nor `agent`. -/
def c2BotItem : HistoryItem := ⟨some "ChatMessage", some "hi", some "trigger", none, none, none⟩

/-- Claim 4 fixture: the AI generator returns an out-of-range score. -/
def c4Env : Env :=
  ⟨.resp 200 (some aliceBody), .resp 200 (some [oneChatAudit]),
   .ok [("language", .pstr "ru"), ("tov_score", .pint 7), ("solution_score", .pint 5),
        ("errors", .parr []), ("next_action", .pstr "ok")],
   "2025-12-16T15:30:00"⟩

/-- Claim 5 and 6 fixtures: cached records and an unreachable platform. -/
def w5rec : PyDict :=
  [("ticket_id", .pstr "21579460"), ("issue", .pstr "Клиент не мог войти"),
   ("action", .pstr "Сбросил пароль"), ("result", .pstr "Успех"),
   ("status", .pstr "generated_new")]

def w5qaRec : PyDict :=
  [("ticket_id", .pstr "21579460"), ("language", .pstr "ru"), ("tov_score", .pint 5),
   ("solution_score", .pint 5), ("errors", .parr []), ("next_action", .pstr "ok"),
   ("status", .pstr "generated_new")]

def w5cache : Cache :=
  [("summary:21579460", dumpsObj w5rec), ("qa:21579460", dumpsObj w5qaRec)]

/-- An environment in which every external collaborator is down. -/
def wEnvDown : Env := ⟨.exc "ConnectionTimeout", .exc "ConnectionTimeout", .error "unreachable", "t"⟩

/-- Claim 6 witness record with non-Latin text in several fields. -/
def w6rec : PyDict :=
  [("ticket_id", .pstr "21579460"), ("assignee_id", .pint 12345),
   ("agent_name", .pstr "Иван Иванов"), ("issue", .pstr "Клиент не мог войти"),
   ("action", .pstr "Сбросил пароль"), ("result", .pstr "Успех"),
   ("status", .pstr "generated_new")]

/-- Claim 7 fixtures: assignment-change events. -/
def c7AssignEv (v : Int) : Event := ⟨none, some (.vint v), none, some "assignee", none, none, none, none⟩

def c7Data : ZData := ⟨⟨none, none⟩, [], [⟨none, none, [c7AssignEv 1, c7AssignEv 2]⟩]⟩

def c7AuditOf (v : Int) : Audit := ⟨none, none, [c7AssignEv v]⟩

/-- Claim 8 fixtures: three cached evaluation records. -/
def c8rec1 : PyDict :=
  [("ticket_id", .pstr "1"), ("tov_score", .pint 5), ("solution_score", .pint 5),
   ("errors", .parr [])]

def c8rec2 : PyDict :=
  [("ticket_id", .pstr "2"), ("tov_score", .pint 3), ("solution_score", .pint 5),
   ("errors", .parr [])]

def c8rec3 : PyDict :=
  [("ticket_id", .pstr "3"), ("tov_score", .pint 5), ("solution_score", .pint 2),
   ("errors", .parr ["rude"])]

def c8cache : Cache :=
  [("qa:1", dumpsObj c8rec1), ("qa:2", dumpsObj c8rec2), ("qa:3", dumpsObj c8rec3)]

def c8cacheClean : Cache := [("qa:1", dumpsObj c8rec1), ("summary:3", dumpsObj c8rec3)]

/-- Claim 9 fixture: metadata succeeds, audit fetch raises. -/
def w9Env : Env := ⟨.resp 200 (some aliceBody), .exc "ReadTimeout", .ok [], "t"⟩

/-- Claim 10 fixture: everything up, generator raises. -/
def w10Env : Env :=
  ⟨.resp 200 (some aliceBody), .resp 200 (some [oneChatAudit]),
   .error "503 Service Unavailable", "2025-12-16T15:30:00"⟩

/-! ## Round-trip correctness of the cache serialization layer -/

theorem charToNatOfNat (n : Nat) (h : n.isValidChar) : (Char.ofNat n).toNat = n := by
  unfold Char.ofNat
  simp only [h, dite_true, dif_pos]
  rfl

theorem char_sur (c : Char) : c.toNat < 55296 ∨ (57343 < c.toNat ∧ c.toNat < 1114112) := by
  have h := c.valid
  unfold UInt32.isValidChar Nat.isValidChar at h
  exact h

theorem fromHex_hexDigit (d : Nat) (h : d < 16) : fromHexDigit (hexDigitCh d) = some d := by
  interval_cases d <;> decide

theorem parseHex4_hex4 (n : Nat) (h : n < 65536) (rest : List Char) :
    parseHex4 (hex4 n ++ rest) = some (n, rest) := by
  simp only [hex4, List.cons_append, List.nil_append, parseHex4,
    fromHex_hexDigit _ (Nat.mod_lt _ (by omega)),
    fromHex_hexDigit _ (Nat.mod_lt _ (by omega))]
  congr 1
  refine Prod.ext ?a rfl
  show n / 4096 % 16 * 4096 + n / 256 % 16 * 256 + n / 16 % 16 * 16 + n % 16 = n
  omega

theorem parseStrBody_surPair (hi lo : Nat) (hhi : hi < 65536) (hlo : lo < 65536)
    (hc1 : (decide (55296 ≤ hi) && decide (hi ≤ 56319)) = true)
    (hc2 : (decide (56320 ≤ lo) && decide (lo ≤ 57343)) = true)
    (fuel : Nat) (tl : List Char) :
    parseStrBody (fuel + 1) ('\\' :: 'u' :: (hex4 hi ++ ('\\' :: 'u' :: (hex4 lo ++ tl)))) =
      (parseStrBody fuel tl).map
        (fun p => (Char.ofNat (65536 + (hi - 55296) * 1024 + (lo - 56320)) :: p.1, p.2)) := by
  simp only [parseStrBody, List.cons_append]
  simp [parseHex4_hex4 _ hhi, parseHex4_hex4 _ hlo, hc1, hc2]

theorem parseStrBody_esc (c : Char) (tl : List Char) (fuel : Nat) :
    parseStrBody (fuel + 1) (escChar c ++ tl) =
      (parseStrBody fuel tl).map (fun p => (c :: p.1, p.2)) := by
  have hval := char_sur c
  by_cases h1 : c = '"'
  · subst h1; simp [escChar, parseStrBody]
  by_cases h2 : c = '\\'
  · subst h2; simp [escChar, parseStrBody]
  by_cases h3 : c = Char.ofNat 8
  · subst h3
    have he : escChar (Char.ofNat 8) = ['\\', 'b'] := by decide
    rw [he]; simp [parseStrBody]
  by_cases h4 : c = Char.ofNat 9
  · subst h4
    have he : escChar (Char.ofNat 9) = ['\\', 't'] := by decide
    rw [he]; simp [parseStrBody]
  by_cases h5 : c = Char.ofNat 10
  · subst h5
    have he : escChar (Char.ofNat 10) = ['\\', 'n'] := by decide
    rw [he]; simp [parseStrBody]
  by_cases h6 : c = Char.ofNat 12
  · subst h6
    have he : escChar (Char.ofNat 12) = ['\\', 'f'] := by decide
    rw [he]; simp [parseStrBody]
  by_cases h7 : c = Char.ofNat 13
  · subst h7
    have he : escChar (Char.ofNat 13) = ['\\', 'r'] := by decide
    rw [he]; simp [parseStrBody]
  by_cases h8 : 32 ≤ c.toNat ∧ c.toNat ≤ 126
  · have he : escChar c = [c] := by
      unfold escChar
      rw [if_neg h1, if_neg h2, if_neg h3, if_neg h4, if_neg h5, if_neg h6, if_neg h7, if_pos h8]
    rw [he]
    simp [parseStrBody, h1, h2]
  by_cases h9 : c.toNat < 65536
  · have he : escChar c = '\\' :: 'u' :: hex4 c.toNat := by
      unfold escChar
      rw [if_neg h1, if_neg h2, if_neg h3, if_neg h4, if_neg h5, if_neg h6, if_neg h7,
        if_neg h8, if_pos h9]
    rw [he]
    have hsur1 : (decide (55296 ≤ c.toNat) && decide (c.toNat ≤ 56319)) = false := by
      rcases hval with h | h
      · simp; omega
      · simp; omega
    have hsur2 : (decide (56320 ≤ c.toNat) && decide (c.toNat ≤ 57343)) = false := by
      rcases hval with h | h
      · simp; omega
      · simp; omega
    simp only [List.cons_append]
    simp [parseStrBody, parseHex4_hex4 _ h9, hsur1, hsur2, Char.ofNat_toNat]
  · have hup : c.toNat < 1114112 := by
      rcases hval with h | h
      · omega
      · exact h.2
    have hm : (c.toNat - 65536) % 1024 ≤ 1023 := Nat.le_of_lt_succ (Nat.mod_lt _ (by omega))
    have he : escChar c ++ tl =
        '\\' :: 'u' :: (hex4 (55296 + (c.toNat - 65536) / 1024) ++
          ('\\' :: 'u' :: (hex4 (56320 + (c.toNat - 65536) % 1024) ++ tl))) := by
      unfold escChar
      rw [if_neg h1, if_neg h2, if_neg h3, if_neg h4, if_neg h5, if_neg h6, if_neg h7,
        if_neg h8, if_neg h9]
      simp
    rw [he, parseStrBody_surPair _ _ (by omega) (by omega) (by simp; omega) (by simp; omega)]
    have harith : 65536 + (55296 + (c.toNat - 65536) / 1024 - 55296) * 1024 +
        (56320 + (c.toNat - 65536) % 1024 - 56320) = c.toNat := by omega
    rw [harith, Char.ofNat_toNat]

theorem stringMkData (s : String) : String.mk s.data = s := by cases s; rfl

theorem parseStrBody_rt (cs : List Char) : ∀ (fuel : Nat) (tl : List Char), cs.length < fuel →
    parseStrBody fuel (cs.flatMap escChar ++ '"' :: tl) = some (cs, tl) := by
  induction cs with
  | nil =>
    intro fuel tl h
    match fuel, h with
    | f + 1, _ => simp [parseStrBody]
  | cons c cs ih =>
    intro fuel tl h
    match fuel, h with
    | f + 1, h =>
      have hsplit : (c :: cs).flatMap escChar ++ '"' :: tl =
          escChar c ++ (cs.flatMap escChar ++ '"' :: tl) := by simp
      rw [hsplit, parseStrBody_esc, ih f tl (by simpa using h)]
      rfl

theorem parseJStr_rt (s : String) (fuel : Nat) (tl : List Char) (h : s.data.length < fuel) :
    parseJStr fuel (escStrChars s ++ tl) = some (s, tl) := by
  have hsplit : escStrChars s ++ tl = '"' :: (s.data.flatMap escChar ++ '"' :: tl) := by
    simp [escStrChars]
  rw [hsplit]
  simp [parseJStr, parseStrBody_rt s.data fuel tl h, stringMkData]

theorem digitCh_toNat (n : Nat) (h : n < 10) : (Char.ofNat (48 + n)).toNat = 48 + n :=
  charToNatOfNat _ (Or.inl (by omega))

theorem isDigitCh_digit (n : Nat) (h : n < 10) : isDigitCh (Char.ofNat (48 + n)) = true := by
  simp [isDigitCh, digitCh_toNat n h]
  omega

theorem natDigsF_ne_nil (fuel n : Nat) (h : n < fuel) : natDigsF fuel n ≠ [] := by
  match fuel, h with
  | f + 1, h =>
    unfold natDigsF
    split
    · simp
    · simp

theorem natDigsF_head_digit (fuel n : Nat) (h : n < fuel) :
    ∃ c cs, natDigsF fuel n = c :: cs ∧ isDigitCh c = true := by
  induction fuel generalizing n with
  | zero => omega
  | succ f ih =>
    unfold natDigsF
    by_cases h10 : n < 10
    · exact ⟨_, _, by rw [if_pos h10], isDigitCh_digit n h10⟩
    · rw [if_neg h10]
      have hlt : n / 10 < f := by omega
      obtain ⟨c, cs, hEq, hc⟩ := ih (n / 10) hlt
      exact ⟨c, cs ++ [Char.ofNat (48 + n % 10)], by rw [hEq]; rfl, hc⟩

theorem parseDigits_natDigsF (fuel : Nat) : ∀ (n acc : Nat) (tl : List Char), n < fuel →
    parseDigits acc (natDigsF fuel n ++ tl) =
      parseDigits (acc * 10 ^ (natDigsF fuel n).length + n) tl := by
  induction fuel with
  | zero => omega
  | succ f ih =>
    intro n acc tl h
    by_cases h10 : n < 10
    · unfold natDigsF
      rw [if_pos h10]
      simp [parseDigits, isDigitCh_digit n h10, digitCh_toNat n h10]
    · unfold natDigsF
      rw [if_neg h10]
      have hlt : n / 10 < f := by omega
      have hmod : n % 10 < 10 := Nat.mod_lt _ (by omega)
      rw [List.append_assoc, ih (n / 10) acc _ hlt]
      simp only [List.cons_append, List.nil_append]
      rw [show parseDigits (acc * 10 ^ (natDigsF f (n / 10)).length + n / 10)
            (Char.ofNat (48 + n % 10) :: tl) =
          parseDigits ((acc * 10 ^ (natDigsF f (n / 10)).length + n / 10) * 10 + n % 10) tl by
        simp [parseDigits, isDigitCh_digit _ hmod, digitCh_toNat _ hmod]]
      congr 1
      simp [List.length_append, pow_succ]
      ring_nf
      omega

theorem parseDigits_stop (n : Nat) (tl : List Char) (h : notDigitHead tl) :
    parseDigits n tl = (n, tl) := by
  cases tl with
  | nil => rfl
  | cons c t =>
    have hc := h c rfl
    simp [parseDigits, hc]

theorem parseNat_natDigs (n : Nat) (tl : List Char) (h : notDigitHead tl) :
    parseNat (natDigs n ++ tl) = some (n, tl) := by
  obtain ⟨c, cs, hEq, hc⟩ := natDigsF_head_digit (n + 1) n (Nat.lt_succ_self n)
  have hstep : parseDigits 0 (natDigs n ++ tl) = (n, tl) := by
    rw [natDigs, parseDigits_natDigsF (n + 1) n 0 tl (Nat.lt_succ_self n)]
    simpa using parseDigits_stop n tl h
  unfold parseNat natDigs
  rw [hEq]
  simp only [List.cons_append]
  rw [if_pos hc]
  rw [show (c :: (cs ++ tl)) = natDigs n ++ tl by rw [natDigs, hEq]; simp]
  rw [hstep]

theorem parseInt_intDigs (i : Int) (tl : List Char) (h : notDigitHead tl) :
    parseInt (intDigs i ++ tl) = some (i, tl) := by
  by_cases hneg : i < 0
  · unfold intDigs
    rw [if_pos hneg]
    simp only [List.cons_append, parseInt]
    rw [if_pos trivial, parseNat_natDigs _ tl h]
    have habs : ((i.natAbs : Int)) = -i := by omega
    simp [habs]
  · unfold intDigs
    rw [if_neg hneg]
    obtain ⟨c, cs, hEq, hc⟩ := natDigsF_head_digit (i.toNat + 1) i.toNat (Nat.lt_succ_self _)
    have hcm : ¬ c = '-' := by
      intro hcontra
      subst hcontra
      simp [isDigitCh] at hc
    unfold natDigs
    rw [hEq]
    simp only [List.cons_append, parseInt]
    rw [if_neg hcm]
    rw [show (c :: (cs ++ tl)) = natDigs i.toNat ++ tl by rw [natDigs, hEq]; simp]
    rw [parseNat_natDigs _ tl h]
    simp
    omega

theorem joinSep_cons_flat {α : Type} (sep : List Char) (f : α → List Char) (x : α)
    (xs : List α) :
    joinSep sep ((x :: xs).map f) = f x ++ xs.flatMap (fun y => sep ++ f y) := by
  induction xs generalizing x with
  | nil => simp [joinSep]
  | cons y ys ih =>
    simp only [List.map_cons, joinSep, List.flatMap_cons]
    rw [show f y :: List.map f ys = List.map f (y :: ys) from rfl, ih y]
    simp

theorem strLens_cons (x : String) (xs : List String) :
    strLens (x :: xs) = x.data.length + strLens xs := by
  simp [strLens]

theorem parseArrMore_rt (xs : List String) : ∀ (fuel : Nat) (tl : List Char),
    xs.length + strLens xs < fuel →
    parseArrMore fuel (joinMoreStr xs ++ ']' :: tl) = some (xs, tl) := by
  induction xs with
  | nil =>
    intro fuel tl h
    match fuel, h with
    | f + 1, _ => simp [joinMoreStr, parseArrMore]
  | cons x xs ih =>
    intro fuel tl h
    match fuel, h with
    | f + 1, h =>
      rw [strLens_cons] at h
      simp only [List.length_cons] at h
      have hshape : joinMoreStr (x :: xs) ++ ']' :: tl =
          ',' :: ' ' :: (escStrChars x ++ (joinMoreStr xs ++ ']' :: tl)) := by
        simp [joinMoreStr]
      rw [hshape]
      simp only [parseArrMore]
      rw [if_neg (by decide), if_pos trivial]
      rw [parseJStr_rt x (f + 1) _ (by omega)]
      show Option.map (fun p => (x :: p.1, p.2)) (parseArrMore f (joinMoreStr xs ++ ']' :: tl)) =
        some (x :: xs, tl)
      rw [ih f tl (by omega)]
      rfl

theorem parseArrBody_rt (xs : List String) (fuel : Nat) (tl : List Char)
    (h : xs.length + strLens xs < fuel) :
    parseArrBody fuel (joinSep [',', ' '] (xs.map escStrChars) ++ (']' :: tl)) =
      some (xs, tl) := by
  cases xs with
  | nil => simp [joinSep, parseArrBody]
  | cons x rest =>
    rw [strLens_cons] at h
    simp only [List.length_cons] at h
    have hshape : joinSep [',', ' '] ((x :: rest).map escStrChars) ++ (']' :: tl) =
        '"' :: (x.data.flatMap escChar ++ ('"' :: (joinMoreStr rest ++ ']' :: tl))) := by
      rw [joinSep_cons_flat]
      simp [escStrChars, joinMoreStr]
    rw [hshape]
    simp only [parseArrBody]
    rw [if_neg (by decide)]
    rw [show ('"' :: (x.data.flatMap escChar ++ ('"' :: (joinMoreStr rest ++ ']' :: tl)))) =
        escStrChars x ++ (joinMoreStr rest ++ ']' :: tl) by simp [escStrChars]]
    rw [parseJStr_rt x fuel _ (by omega)]
    show Option.map (fun p => (x :: p.1, p.2))
        (parseArrMore fuel (joinMoreStr rest ++ ']' :: tl)) = some (x :: rest, tl)
    rw [parseArrMore_rt rest fuel tl (by omega)]
    rfl

theorem isDigitCh_not_special (c : Char) (hc : isDigitCh c = true) :
    ¬ c = '"' ∧ ¬ c = '[' ∧ ¬ c = 'n' := by
  refine ⟨?a, ?b, ?c⟩ <;> intro hcon <;> subst hcon <;> exact absurd hc (by decide)

theorem parsePrim_rt (p : Prim) (fuel : Nat) (tl : List Char)
    (hf : primSize p < fuel) (htl : notDigitHead tl) :
    parsePrim fuel (dumpsPrim p ++ tl) = some (p, tl) := by
  cases p with
  | pnull => simp [dumpsPrim, parsePrim]
  | pint i =>
    by_cases hneg : i < 0
    · have hshape : dumpsPrim (.pint i) ++ tl = '-' :: (natDigs i.natAbs ++ tl) := by
        simp [dumpsPrim, intDigs, hneg]
      rw [hshape]
      simp only [parsePrim]
      rw [if_neg (by decide), if_neg (by decide), if_neg (by decide)]
      rw [show ('-' :: (natDigs i.natAbs ++ tl)) = intDigs i ++ tl by simp [intDigs, hneg]]
      rw [parseInt_intDigs i tl htl]
      rfl
    · obtain ⟨c, cs, hEq, hc⟩ := natDigsF_head_digit (i.toNat + 1) i.toNat (Nat.lt_succ_self _)
      obtain ⟨hq, hb, hn⟩ := isDigitCh_not_special c hc
      have hshape : dumpsPrim (.pint i) ++ tl = c :: (cs ++ tl) := by
        simp [dumpsPrim, intDigs, hneg, natDigs, hEq]
      rw [hshape]
      simp only [parsePrim]
      rw [if_neg hq, if_neg hb, if_neg hn]
      rw [show (c :: (cs ++ tl)) = intDigs i ++ tl by simp [intDigs, hneg, natDigs, hEq]]
      rw [parseInt_intDigs i tl htl]
      rfl
  | pstr s =>
    have hshape : dumpsPrim (.pstr s) ++ tl = '"' :: (s.data.flatMap escChar ++ ('"' :: tl)) := by
      simp [dumpsPrim, escStrChars]
    rw [hshape]
    simp only [parsePrim]
    rw [if_pos trivial]
    rw [parseStrBody_rt s.data fuel tl (by simp only [primSize] at hf; omega)]
    simp [stringMkData]
  | parr xs =>
    have hshape : dumpsPrim (.parr xs) ++ tl =
        '[' :: (joinSep [',', ' '] (xs.map escStrChars) ++ (']' :: tl)) := by
      simp [dumpsPrim]
    rw [hshape]
    simp only [parsePrim]
    rw [if_neg (by decide), if_pos trivial]
    rw [parseArrBody_rt xs fuel tl (by simp only [primSize] at hf; omega)]
    rfl

theorem parsePair_rt (k : String) (v : Prim) (fuel : Nat) (tl : List Char)
    (hk : k.data.length < fuel) (hv : primSize v < fuel) (htl : notDigitHead tl) :
    parsePair fuel (pairChars (k, v) ++ tl) = some ((k, v), tl) := by
  have hshape : pairChars (k, v) ++ tl = escStrChars k ++ (':' :: ' ' :: (dumpsPrim v ++ tl)) := by
    simp [pairChars]
  rw [hshape]
  unfold parsePair
  rw [parseJStr_rt k fuel _ hk]
  show (match parsePrim fuel (dumpsPrim v ++ tl) with
    | some (v, r3) => some ((k, v), r3)
    | none => none) = some ((k, v), tl)
  rw [parsePrim_rt v fuel tl hv htl]

theorem objSize_cons (k : String) (v : Prim) (d : PyDict) :
    objSize ((k, v) :: d) = 1 + (k.data.length + primSize v) + objSize d := by
  simp [objSize]
  ring

theorem primSize_pos (p : Prim) : 1 ≤ primSize p := by
  cases p <;> simp [primSize]

theorem notDigitHead_objTail (d : PyDict) (tl : List Char) :
    notDigitHead (objMoreChars d ++ rbrace :: tl) := by
  cases d with
  | nil =>
    intro c hc
    simp [objMoreChars] at hc
    subst hc
    decide
  | cons kv rest =>
    intro c hc
    simp [objMoreChars, pairChars] at hc
    subst hc
    decide

theorem parseObjMore_rt (d : PyDict) : ∀ (fuel : Nat) (tl : List Char), objSize d < fuel →
    parseObjMore fuel (objMoreChars d ++ rbrace :: tl) = some (d, tl) := by
  induction d with
  | nil =>
    intro fuel tl h
    match fuel, h with
    | f + 1, _ => simp [objMoreChars, parseObjMore]
  | cons kv rest ih =>
    intro fuel tl h
    match fuel, h with
    | f + 1, h =>
      obtain ⟨k, v⟩ := kv
      rw [objSize_cons] at h
      have hps := primSize_pos v
      have hshape : objMoreChars ((k, v) :: rest) ++ rbrace :: tl =
          ',' :: ' ' :: (pairChars (k, v) ++ (objMoreChars rest ++ rbrace :: tl)) := by
        simp [objMoreChars, pairChars]
      rw [hshape]
      simp only [parseObjMore]
      rw [if_neg (by decide), if_pos trivial]
      rw [parsePair_rt k v (f + 1) _ (by omega) (by omega) (notDigitHead_objTail rest tl)]
      show Option.map (fun p => ((k, v) :: p.1, p.2))
          (parseObjMore f (objMoreChars rest ++ rbrace :: tl)) = some ((k, v) :: rest, tl)
      rw [ih f tl (by omega)]
      rfl

theorem parseObjBody_rt (d : PyDict) (fuel : Nat) (tl : List Char) (h : objSize d < fuel) :
    parseObjBody fuel ((joinSep [',', ' '] (d.map pairChars) ++ [rbrace]) ++ tl) =
      some (d, tl) := by
  cases d with
  | nil => simp [joinSep, parseObjBody]
  | cons kv rest =>
    obtain ⟨k, v⟩ := kv
    rw [objSize_cons] at h
    have hps := primSize_pos v
    have hshape : (joinSep [',', ' '] (((k, v) :: rest).map pairChars) ++ [rbrace]) ++ tl =
        '"' :: (k.data.flatMap escChar ++
          ('"' :: (':' :: ' ' :: (dumpsPrim v ++ (objMoreChars rest ++ rbrace :: tl))))) := by
      rw [joinSep_cons_flat]
      simp [pairChars, escStrChars, objMoreChars]
    rw [hshape]
    simp only [parseObjBody]
    rw [if_neg (by decide)]
    rw [show '"' :: (k.data.flatMap escChar ++
          ('"' :: (':' :: ' ' :: (dumpsPrim v ++ (objMoreChars rest ++ rbrace :: tl))))) =
        pairChars (k, v) ++ (objMoreChars rest ++ rbrace :: tl) by simp [pairChars, escStrChars]]
    rw [parsePair_rt k v fuel _ (by omega) (by omega) (notDigitHead_objTail rest tl)]
    show Option.map (fun p => ((k, v) :: p.1, p.2))
        (parseObjMore fuel (objMoreChars rest ++ rbrace :: tl)) = some ((k, v) :: rest, tl)
    rw [parseObjMore_rt rest fuel tl (by omega)]
    rfl

theorem escChar_len_pos (c : Char) : 1 ≤ (escChar c).length := by
  unfold escChar
  split_ifs <;> simp

theorem flatMap_escChar_len (cs : List Char) : cs.length ≤ (cs.flatMap escChar).length := by
  induction cs with
  | nil => simp
  | cons c cs ih =>
    simp only [List.flatMap_cons, List.length_append, List.length_cons]
    have := escChar_len_pos c
    omega

theorem escStrChars_len (s : String) : s.data.length + 2 ≤ (escStrChars s).length := by
  simp only [escStrChars, List.length_cons, List.length_append, List.length_singleton]
  have := flatMap_escChar_len s.data
  omega

theorem pairChars_len (k : String) (v : Prim) :
    k.data.length + primSize v + 4 ≤ (pairChars (k, v)).length := by
  cases v with
  | pnull =>
    simp only [pairChars, dumpsPrim, List.length_append]
    have := escStrChars_len k
    simp only [primSize, List.length_cons, List.length_nil]
    omega
  | pint i =>
    simp only [pairChars, dumpsPrim, List.length_append]
    have := escStrChars_len k
    have h2 : 1 ≤ (intDigs i).length := by
      unfold intDigs
      split_ifs with hneg
      · simp
      · have := natDigsF_ne_nil (i.toNat + 1) i.toNat (Nat.lt_succ_self _)
        unfold natDigs
        cases hd : natDigsF (i.toNat + 1) i.toNat with
        | nil => exact absurd hd this
        | cons a b => simp [hd]
    simp only [primSize, List.length_cons, List.length_nil]
    omega
  | pstr s =>
    simp only [pairChars, dumpsPrim, List.length_append]
    have := escStrChars_len k
    have := escStrChars_len s
    simp only [primSize, List.length_cons, List.length_nil]
    omega
  | parr xs =>
    simp only [pairChars, dumpsPrim, List.length_append]
    have hk := escStrChars_len k
    have harr : xs.length + strLens xs ≤
        (joinSep [',', ' '] (xs.map escStrChars)).length + 1 := by
      cases xs with
      | nil => simp [joinSep, strLens]
      | cons x rest =>
        rw [joinSep_cons_flat, strLens_cons]
        have hx := escStrChars_len x
        have htail : rest.length + strLens rest ≤
            (rest.flatMap (fun y => [',', ' '] ++ escStrChars y)).length := by
          induction rest with
          | nil => simp [strLens]
          | cons y ys ihy =>
            rw [strLens_cons]
            simp only [List.flatMap_cons, List.length_append, List.length_cons] at ihy ⊢
            have hy := escStrChars_len y
            omega
        simp only [List.length_append, List.length_cons]
        omega
    simp only [primSize, List.length_cons, List.length_nil, List.length_append]
    omega

theorem objMoreChars_len (d : PyDict) : objSize d ≤ (objMoreChars d).length := by
  induction d with
  | nil => simp [objSize, objMoreChars]
  | cons kv rest ih =>
    obtain ⟨k, v⟩ := kv
    rw [objSize_cons]
    simp only [objMoreChars, List.flatMap_cons, List.length_cons, List.length_append] at ih ⊢
    have := pairChars_len k v
    omega

theorem objBodyChars_len (d : PyDict) :
    objSize d < (joinSep [',', ' '] (d.map pairChars) ++ [rbrace]).length + 1 := by
  cases d with
  | nil => simp [objSize, joinSep]
  | cons kv rest =>
    obtain ⟨k, v⟩ := kv
    rw [objSize_cons, joinSep_cons_flat]
    have h1 := pairChars_len k v
    have h2 := objMoreChars_len rest
    simp only [objMoreChars] at h2
    simp only [List.cons_append, List.nil_append, List.length_append, List.length_cons,
      List.length_nil]
    omega

theorem dictSet_append (acc : PyDict) (k : String) (v : Prim)
    (h : ∀ kv ∈ acc, kv.1 ≠ k) : dictSet acc k v = acc ++ [(k, v)] := by
  have hcond : (acc.any (fun kv => kv.1 == k)) = false := by
    rw [List.any_eq_false]
    intro x hx
    simpa using h x hx
  unfold dictSet
  rw [hcond]
  simp

theorem foldl_dictSet_nodup (d : PyDict) : ∀ acc : PyDict,
    (((acc ++ d).map Prod.fst).Nodup) →
    d.foldl (fun a kv => dictSet a kv.1 kv.2) acc = acc ++ d := by
  induction d with
  | nil => simp
  | cons kv rest ih =>
    intro acc hnd
    simp only [List.foldl_cons]
    have hne : ∀ x ∈ acc, x.1 ≠ kv.1 := by
      intro x hx hcon
      rw [List.map_append, List.nodup_append] at hnd
      exact hnd.2.2 (List.mem_map_of_mem Prod.fst hx)
        (by rw [hcon]; exact List.mem_map_of_mem Prod.fst (List.mem_cons_self kv rest))
    rw [dictSet_append acc kv.1 kv.2 hne]
    have hnd2 : (((acc ++ [kv]) ++ rest).map Prod.fst).Nodup := by
      rw [List.append_assoc]
      simpa using hnd
    rw [ih (acc ++ [kv]) hnd2]
    simp

theorem loadsObj_dumpsObj (d : PyDict) (hnd : (d.map Prod.fst).Nodup) :
    loadsObj (dumpsObj d) = some d := by
  unfold loadsObj dumpsObj
  rw [show (String.mk (dumpsObjChars d)).data = dumpsObjChars d from rfl]
  rw [show dumpsObjChars d = lbrace :: (joinSep [',', ' '] (d.map pairChars) ++ [rbrace])
    from rfl]
  simp only [List.length_cons]
  rw [if_pos trivial]
  have hrt := parseObjBody_rt d ((joinSep [',', ' '] (d.map pairChars) ++ [rbrace]).length + 1)
    [] (objBodyChars_len d)
  rw [List.append_nil] at hrt
  rw [hrt]
  show (if ([] : List Char) = [] then
      some (List.foldl (fun a kv => dictSet a kv.1 kv.2) [] d) else none) = some d
  rw [if_pos rfl, foldl_dictSet_nodup d [] (by simpa using hnd)]
  simp

/-! ## Helper lemmas about dicts, the cache and the endpoints -/

theorem assoc_set_get {α : Type} (d : List (String × α)) (k : String) (v : α) :
    ((if d.any (fun x => x.1 == k) then d.map (fun x => if x.1 == k then (k, v) else x)
      else d ++ [(k, v)]).find? (fun x => x.1 == k)) = some (k, v) := by
  by_cases h : d.any (fun x => x.1 == k) = true
  · rw [if_pos h]
    induction d with
    | nil => simp at h
    | cons x rest ih =>
      simp only [List.any_cons, Bool.or_eq_true] at h
      by_cases hx : (x.1 == k) = true
      · rw [List.map_cons, if_pos hx, List.find?_cons]
        simp
      · have hx2 : (x.1 == k) = false := by simpa using hx
        have hrest : rest.any (fun x => x.1 == k) = true := by
          rcases h with h | h
          · exact absurd h hx
          · exact h
        rw [List.map_cons, if_neg hx, List.find?_cons]
        simp only [hx2]
        exact ih hrest
  · rw [if_neg h]
    rw [List.find?_append]
    have hnone : d.find? (fun x => x.1 == k) = none := by
      rw [List.find?_eq_none]
      intro x hx
      simp only [List.any_eq_true, not_exists] at h
      intro hcon
      exact h x ⟨hx, hcon⟩
    rw [hnone]
    simp [List.find?_cons]

theorem assoc_set_get_ne {α : Type} (d : List (String × α)) (k k2 : String) (v : α)
    (hne : k2 ≠ k) :
    ((if d.any (fun x => x.1 == k) then d.map (fun x => if x.1 == k then (k, v) else x)
      else d ++ [(k, v)]).find? (fun x => x.1 == k2)) = d.find? (fun x => x.1 == k2) := by
  have hkv : ((((k, v) : String × α)).1 == k2) = false := by
    simp
    exact fun hcon => hne hcon.symm
  by_cases h : d.any (fun x => x.1 == k) = true
  · rw [if_pos h]
    clear h
    induction d with
    | nil => simp
    | cons x rest ih =>
      by_cases hx : (x.1 == k) = true
      · have hxk : x.1 = k := by simpa using hx
        have hx2 : (x.1 == k2) = false := by
          rw [hxk]
          simp
          exact fun hcon => hne hcon.symm
        rw [List.map_cons, if_pos hx, List.find?_cons, List.find?_cons]
        simp only [hkv, hx2]
        exact ih
      · rw [List.map_cons, if_neg hx, List.find?_cons, List.find?_cons]
        cases hx2 : (x.1 == k2) with
        | true => rfl
        | false => exact ih
  · rw [if_neg h, List.find?_append]
    have hsingleton : List.find? (fun x => x.1 == k2) [(k, v)] = none := by
      rw [List.find?_cons]
      simp only [hkv]
      rfl
    rw [hsingleton]
    cases hd : List.find? (fun x => x.1 == k2) d with
    | some x => rfl
    | none => rfl

theorem dictGet_dictSet_self (d : PyDict) (k : String) (v : Prim) :
    dictGet (dictSet d k v) k = some v := by
  unfold dictGet dictSet
  rw [assoc_set_get]
  rfl

theorem dictGet_dictSet_ne (d : PyDict) (k k2 : String) (v : Prim) (hne : k2 ≠ k) :
    dictGet (dictSet d k v) k2 = dictGet d k2 := by
  unfold dictGet dictSet
  rw [assoc_set_get_ne _ _ _ _ hne]

theorem cget_cset_self (c : Cache) (k : String) (v : String) :
    cget (cset c k v) k = some v := by
  unfold cget cset
  rw [assoc_set_get]
  rfl

theorem cget_cset_ne (c : Cache) (k k2 : String) (v : String) (hne : k2 ≠ k) :
    cget (cset c k v) k2 = cget c k2 := by
  unfold cget cset
  rw [assoc_set_get_ne _ _ _ _ hne]

theorem dumpsObj_ne_empty (d : PyDict) : dumpsObj d ≠ "" := by
  intro hcon
  have hdata := congrArg String.data hcon
  simp only [dumpsObj, dumpsObjChars] at hdata
  exact absurd hdata (by simp)

/-- A cache hit on a stored record deserializes it and returns it with
status `from_cache`, performing no external call. -/
theorem get_summary_hit (tid : String) (c : Cache) (env : Env) (d : PyDict)
    (hc : cget c ("summary:" ++ tid) = some (dumpsObj d))
    (hnd : (d.map Prod.fst).Nodup) :
    get_summary tid (some c) env =
      .ok (dictSet d "status" (.pstr "from_cache"), some c, ⟨false, false⟩) := by
  unfold get_summary
  have hhit : cacheHit (some c) ("summary:" ++ tid) = some (dumpsObj d) := by
    simp only [cacheHit, hc]
    rw [if_neg (dumpsObj_ne_empty d)]
  rw [hhit]
  simp only [loadsObj_dumpsObj d hnd]

theorem evaluate_ticket_hit (tid : String) (c : Cache) (env : Env) (d : PyDict)
    (hc : cget c ("qa:" ++ tid) = some (dumpsObj d))
    (hnd : (d.map Prod.fst).Nodup) :
    evaluate_ticket tid (some c) env =
      .ok (dictSet d "status" (.pstr "from_cache"), some c, ⟨false, false⟩) := by
  unfold evaluate_ticket
  have hhit : cacheHit (some c) ("qa:" ++ tid) = some (dumpsObj d) := by
    simp only [cacheHit, hc]
    rw [if_neg (dumpsObj_ne_empty d)]
  rw [hhit]
  simp only [loadsObj_dumpsObj d hnd]

/-! ## Support lemmas for the transcript extractor and agent resolver -/

theorem eventMessages_chat (users : List User) (ev : Event)
    (h : ev.eventType = some "ChatStartedEvent") :
    eventMessages users ev = (chatHistory ev).filterMap (histLine users) := by
  unfold eventMessages
  rw [if_pos h]

theorem eventMessages_comment (users : List User) (ev : Event)
    (h : ev.eventType = some "Comment") :
    eventMessages users ev = (commentLine users ev).toList := by
  unfold eventMessages
  rw [if_neg (by rw [h]; decide), if_pos h]

theorem eventMessages_other (users : List User) (ev : Event)
    (h1 : ev.eventType ≠ some "ChatStartedEvent") (h2 : ev.eventType ≠ some "Comment") :
    eventMessages users ev = [] := by
  unfold eventMessages
  rw [if_neg h1, if_neg h2]

theorem commentLine_private (users : List User) (ev : Event)
    (h : ev.public.getD false = false) : commentLine users ev = none := by
  unfold commentLine
  rw [h]
  rfl

theorem transcript_comments_only (d : ZData)
    (h : ∀ a ∈ d.audits, ∀ ev ∈ a.events, ev.eventType = some "ChatStartedEvent" →
      (chatHistory ev).filterMap (histLine d.users) = []) :
    transcriptMessages d = publicCommentMessages d := by
  unfold transcriptMessages publicCommentMessages
  refine List.flatMap_congr fun a ha => ?inner
  refine List.flatMap_congr fun ev hev => ?ev
  by_cases h1 : ev.eventType = some "ChatStartedEvent"
  · rw [eventMessages_chat d.users ev h1, h a ha ev hev h1, if_neg (by rw [h1]; decide)]
  · by_cases h2 : ev.eventType = some "Comment"
    · rw [eventMessages_comment d.users ev h2, if_pos h2]
    · rw [eventMessages_other d.users ev h1 h2, if_neg h2]

theorem transcript_chats_only (d : ZData)
    (h : ∀ a ∈ d.audits, ∀ ev ∈ a.events, ev.eventType = some "ChatStartedEvent") :
    transcriptMessages d = (allChatItems d).filterMap (histLine d.users) := by
  unfold transcriptMessages allChatItems
  rw [List.filterMap_flatMap]
  refine List.flatMap_congr fun a ha => ?inner
  rw [List.filterMap_flatMap]
  refine List.flatMap_congr fun ev hev => ?ev
  exact eventMessages_chat d.users ev (h a ha ev hev)

theorem optTruthy_isSome (x : Option PyVal) (h : optTruthy x = true) :
    ∃ v, x = some v := by
  cases x with
  | none => simp [optTruthy] at h
  | some v => exact ⟨v, rfl⟩

theorem findAssigneeInAudits_findSome (l : List Audit) :
    findAssigneeInAudits l = l.findSome? auditAssignee := by
  induction l with
  | nil => rfl
  | cons a rest ih =>
    rw [List.findSome?_cons]
    by_cases h1 : optTruthy a.assignee = true
    · obtain ⟨v, hv⟩ := optTruthy_isSome _ h1
      rw [show auditAssignee a = some v by unfold auditAssignee; rw [if_pos h1, hv]]
      unfold findAssigneeInAudits
      rw [if_pos h1, hv]
    · by_cases h2 : optTruthy a.assignee_id = true
      · obtain ⟨v, hv⟩ := optTruthy_isSome _ h2
        rw [show auditAssignee a = some v by
          unfold auditAssignee; rw [if_neg h1, if_pos h2, hv]]
        unfold findAssigneeInAudits
        rw [if_neg h1, if_pos h2, hv]
      · rw [show auditAssignee a = findAssigneeInEvents a.events by
          unfold auditAssignee; rw [if_neg h1, if_neg h2]]
        unfold findAssigneeInAudits
        rw [if_neg h1, if_neg h2]
        cases hev : findAssigneeInEvents a.events with
        | some v => rfl
        | none => exact ih

theorem findAssigneeInEvents_first (evs1 : List Event) (ev : Event) (evs2 : List Event)
    (h1 : findAssigneeInEvents evs1 = none)
    (h2 : ((ev.field_name == some "assignee" || ev.field_name == some "assignee_id") &&
      optTruthy ev.value) = true) :
    findAssigneeInEvents (evs1 ++ ev :: evs2) = ev.value := by
  induction evs1 with
  | nil =>
    rw [List.nil_append]
    unfold findAssigneeInEvents
    rw [if_pos h2]
  | cons e rest ih =>
    unfold findAssigneeInEvents at h1
    by_cases hc : ((e.field_name == some "assignee" || e.field_name == some "assignee_id") &&
        optTruthy e.value) = true
    · rw [if_pos hc] at h1
      have := (Bool.and_eq_true _ _).mp hc
      rw [h1] at this
      simp [optTruthy] at this
    · rw [if_neg hc] at h1
      rw [List.cons_append]
      unfold findAssigneeInEvents
      rw [if_neg hc]
      exact ih h1

/-! ## Support lemmas for the endpoints -/

theorem auditsList_fail (a : AuditsOutcome) (h : ∀ l, a ≠ .resp 200 (some l)) :
    auditsList a = [] := by
  unfold auditsList
  split
  · next l => exact absurd rfl (h l)
  · rfl

theorem parse_no_audits_dialogue (t : Ticket) (users : List User) :
    (parse_ticket_data ⟨t, users, []⟩).dialogue = "" := by
  simp [parse_ticket_data, transcriptMessages, joinNl]

theorem summary_fail_update (tid e : String) (P : ParseOut) :
    dictUpdate (run_summary_ai tid (.error e)) (metaUpdates tid P) =
    sFailDict tid e (pyValPrim P.assignee) P.agent_name := by
  rfl

theorem eval_fail_update (tid e now : String) (P : ParseOut) :
    dictUpdate (run_evaluation_ai tid (.error e) now) (metaUpdates tid P) =
    eFailDict tid e now (pyValPrim P.assignee) P.agent_name := by
  rfl

theorem sFailDict_nodup (tid e : String) (aid : Prim) (agent : String) :
    ((sFailDict tid e aid agent).map Prod.fst).Nodup := by
  simp only [sFailDict, List.map_cons, List.map_nil]
  decide

theorem eFailDict_nodup (tid e now : String) (aid : Prim) (agent : String) :
    ((eFailDict tid e now aid agent).map Prod.fst).Nodup := by
  simp only [eFailDict, List.map_cons, List.map_nil]
  decide

/-! ## The claims -/

/-- Claim C1, counterexample: in an audit log whose single audit holds a
chat message followed by a public comment, the transcript contains the
chat utterance AND the public-comment line — public comments are not
suppressed when chat utterances exist, contradicting the claimed two-pass
fallback policy. -/
theorem claim1_counterexample :
    transcriptMessages c1Data = ["CLIENT (User): hello", "Igor: note"] ∧
    eventMessages c1Data.users c1ChatEvent = ["CLIENT (User): hello"] ∧
    commentLine c1Data.users c1CommentEvent = some "Igor: note" ∧
    (parse_ticket_data c1Data).dialogue = "CLIENT (User): hello\nIgor: note" := by
  decide

/-- Claim C1 as amended: chat messages and public comments are collected
in one pass, so a public comment with a non-empty body always contributes
its line, even when chat utterances exist; when no chat-derived utterance
exists the transcript is exactly the public-comment lines in audit order;
and non-public comments never contribute. -/
theorem claim1_comments_single_pass :
    (∀ (users : List User) (ev : Event), ev.eventType = some "Comment" →
      ev.public.getD false = false → eventMessages users ev = []) ∧
    (∀ d : ZData, (∀ a ∈ d.audits, ∀ ev ∈ a.events,
        ev.eventType = some "ChatStartedEvent" →
        (chatHistory ev).filterMap (histLine d.users) = []) →
      transcriptMessages d = publicCommentMessages d) ∧
    (∀ (users : List User) (ev : Event) (b : String), ev.eventType = some "Comment" →
      ev.public = some true → pyOrS ev.plain_body ev.body = some b → b.data.isEmpty = false →
      eventMessages users ev = [(match ev.author_id with
        | some aid => (userMapGet users aid).getD "AGENT"
        | none => "AGENT") ++ ": " ++ b]) := by
  refine ⟨?priv, ?comm, ?incl⟩
  · intro users ev h1 h2
    rw [eventMessages_comment users ev h1, commentLine_private users ev h2]
    rfl
  · exact transcript_comments_only
  · intro users ev b h1 h2 h3 h4
    rw [eventMessages_comment users ev h1]
    unfold commentLine
    rw [h2]
    show Option.toList (match pyOrS ev.plain_body ev.body with
      | some b => if b.data.isEmpty = true then none else
          some ((match ev.author_id with
            | some aid => (userMapGet users aid).getD "AGENT"
            | none => "AGENT") ++ ": " ++ b)
      | none => none) = _
    rw [h3]
    show Option.toList (if b.data.isEmpty = true then none else
        some ((match ev.author_id with
          | some aid => (userMapGet users aid).getD "AGENT"
          | none => "AGENT") ++ ": " ++ b)) = _
    rw [if_neg (by simp [h4])]
    rfl

/-- Witness for the amended claim C1 at a concrete comments-only log and
at the concrete public comment of the counterexample fixture. -/
theorem claim1_comments_single_pass_witness :
    transcriptMessages ⟨⟨none, none⟩, [⟨9, "Igor"⟩], [⟨none, none, [c1CommentEvent]⟩]⟩ =
      publicCommentMessages ⟨⟨none, none⟩, [⟨9, "Igor"⟩], [⟨none, none, [c1CommentEvent]⟩]⟩ ∧
    eventMessages [⟨9, "Igor"⟩] c1CommentEvent = ["Igor: note"] :=
  ⟨claim1_comments_single_pass.2.1 ⟨⟨none, none⟩, [⟨9, "Igor"⟩], [⟨none, none, [c1CommentEvent]⟩]⟩
      (by decide),
   claim1_comments_single_pass.2.2 [⟨9, "Igor"⟩] c1CommentEvent "note" (by decide) (by decide)
      (by decide) (by decide)⟩

/-- Claim C2, counterexample: a `ChatMessage` whose actor role is neither
`end-user` nor `agent` is not skipped — it is emitted with the AGENT tag. -/
theorem claim2_counterexample :
    histLine [] c2BotItem = some "AGENT (User): hi" ∧
    c2BotItem.actor_type ≠ some "end-user" ∧ c2BotItem.actor_type ≠ some "agent" := by
  decide

/-- Claim C2 as amended: `end-user` maps to CLIENT and every other actor
role (including `agent`) maps to AGENT — no item is skipped for its role —
so every emitted utterance is tagged CLIENT or AGENT; and on a log of
`ChatStartedEvent`s only, the utterances are the in-order `filterMap` of
the source history items, so utterance order equals source order. -/
theorem claim2_role_mapping :
    (∀ (users : List User) (h : HistoryItem) (line : String), histLine users h = some line →
      ∃ nm msg, (h.actor_type = some "end-user" ∧ line = "CLIENT (" ++ nm ++ ")" ++ ": " ++ msg) ∨
        (h.actor_type ≠ some "end-user" ∧ line = "AGENT (" ++ nm ++ ")" ++ ": " ++ msg)) ∧
    (∀ d : ZData, (∀ a ∈ d.audits, ∀ ev ∈ a.events, ev.eventType = some "ChatStartedEvent") →
      transcriptMessages d = (allChatItems d).filterMap (histLine d.users)) := by
  refine ⟨?role, transcript_chats_only⟩
  intro users h line hl
  simp only [histLine] at hl
  split at hl
  · exact absurd hl (by simp)
  split at hl
  · exact absurd hl (by simp)
  by_cases hrole : h.actor_type = some "end-user"
  · rw [if_pos hrole] at hl
    exact ⟨_, _, Or.inl ⟨hrole, (Option.some.inj hl).symm⟩⟩
  · rw [if_neg hrole] at hl
    exact ⟨_, _, Or.inr ⟨hrole, (Option.some.inj hl).symm⟩⟩

/-- Witness for the amended claim C2 at the bot-role item and at the
chat-only counterexample-style log. -/
theorem claim2_role_mapping_witness :
    (∃ nm msg, (c2BotItem.actor_type = some "end-user" ∧
        "AGENT (User): hi" = "CLIENT (" ++ nm ++ ")" ++ ": " ++ msg) ∨
      (c2BotItem.actor_type ≠ some "end-user" ∧
        "AGENT (User): hi" = "AGENT (" ++ nm ++ ")" ++ ": " ++ msg)) ∧
    transcriptMessages ⟨⟨none, none⟩, [], [⟨none, none, [c1ChatEvent]⟩]⟩ =
      (allChatItems ⟨⟨none, none⟩, [], [⟨none, none, [c1ChatEvent]⟩]⟩).filterMap
        (histLine ([] : List User)) :=
  ⟨claim2_role_mapping.1 [] c2BotItem "AGENT (User): hi" (by decide),
   claim2_role_mapping.2 ⟨⟨none, none⟩, [], [⟨none, none, [c1ChatEvent]⟩]⟩ (by decide)⟩

/-- Claim C3: the code raises `HTTPException(404, "Ticket not found")` for
an unknown ticket id, but raises it inside the `try` block whose
`except Exception` clause catches it (FastAPI HTTPException subclasses
Exception) and re-raises `HTTPException(500, "Network Error")` — so a 404
from the platform reaches the caller as the same generic 500 server error
a transport failure produces, not as a distinguishable client error. -/
theorem claim3_not_found_conflated :
    metaTryBody (.resp 404 none) = .error (.httpExc ⟨404, "Ticket not found"⟩) ∧
    metadataResult (.resp 404 none) = .error ⟨500, "Network Error"⟩ ∧
    metadataResult (.exc "ConnectionError") = .error ⟨500, "Network Error"⟩ ∧
    get_summary "21579460" none ⟨.resp 404 none, .resp 200 (some []), .ok [], "t"⟩ =
      .error ⟨500, "Network Error"⟩ ∧
    evaluate_ticket "21579460" none ⟨.resp 404 none, .resp 200 (some []), .ok [], "t"⟩ =
      .error ⟨500, "Network Error"⟩ :=
  ⟨by decide, by decide, by decide, by decide, by decide⟩

/-- Claim C4, counterexample: when the generator returns `tov_score = 7`,
the evaluation endpoint returns (and caches) the record with score 7 —
no clamping to [0,5] happens anywhere. -/
theorem claim4_counterexample :
    ((evaluate_ticket "1" (some []) c4Env).toOption.map (fun x => dictGet x.1 "tov_score")) =
      some (some (.pint 7)) ∧
    ¬ ((7 : Int) ≤ 5) :=
  ⟨by decide, by decide⟩

/-- Claim C4 as amended: scores are not clamped.  The generator fallback
record carries scores 0 (inside [0,5]), and on generator success every
field except `analyzed_at` — the scores included — is returned exactly as
the generator produced it. -/
theorem claim4_scores_unclamped :
    (∀ tid e now : String,
      scoreD (run_evaluation_ai tid (.error e) now) "tov_score" = 0 ∧
      scoreD (run_evaluation_ai tid (.error e) now) "solution_score" = 0 ∧
      (0 : Int) ≤ 0 ∧ (0 : Int) ≤ 5) ∧
    (∀ (tid now : String) (d : PyDict) (k : String), k ≠ "analyzed_at" →
      dictGet (run_evaluation_ai tid (.ok d) now) k = dictGet d k) := by
  constructor
  · intro tid e now
    exact ⟨rfl, rfl, by decide, by decide⟩
  · intro tid now d k hk
    show dictGet (dictSet d "analyzed_at" (.pstr now)) k = dictGet d k
    exact dictGet_dictSet_ne d _ k _ hk

/-- Witness for the amended claim C4: a concrete out-of-range score is
passed through verbatim, and the fallback record scores 0. -/
theorem claim4_scores_unclamped_witness :
    dictGet (run_evaluation_ai "1" (.ok [("tov_score", .pint 9)]) "t") "tov_score" =
      dictGet [("tov_score", .pint 9)] "tov_score" ∧
    scoreD (run_evaluation_ai "1" (.error "boom") "t") "tov_score" = 0 :=
  ⟨claim4_scores_unclamped.2 "1" "t" [("tov_score", .pint 9)] "tov_score" (by decide),
   (claim4_scores_unclamped.1 "1" "boom" "t").1⟩

/-- Claim C5: once a record for a ticket is in the cache under the
feature's key, a request for that ticket (for either feature) performs no
ticket fetch and no AI call — the environment, including an unreachable
platform, is irrelevant — and returns the stored record with status
`from_cache`, leaving the cache unchanged. -/
theorem claim5_cached_requests_idempotent (tid : String) (c : Cache) (env : Env)
    (d : PyDict) (hnd : (d.map Prod.fst).Nodup) :
    (cget c ("summary:" ++ tid) = some (dumpsObj d) →
      get_summary tid (some c) env =
        .ok (dictSet d "status" (.pstr "from_cache"), some c, ⟨false, false⟩)) ∧
    (cget c ("qa:" ++ tid) = some (dumpsObj d) →
      evaluate_ticket tid (some c) env =
        .ok (dictSet d "status" (.pstr "from_cache"), some c, ⟨false, false⟩)) :=
  ⟨fun hc => get_summary_hit tid c env d hc hnd,
   fun hc => evaluate_ticket_hit tid c env d hc hnd⟩

/-- Witness for claim C5: both features answer from the cache while every
collaborator is unreachable. -/
theorem claim5_cached_requests_idempotent_witness :
    get_summary "21579460" (some w5cache) wEnvDown =
      .ok (dictSet w5rec "status" (.pstr "from_cache"), some w5cache, ⟨false, false⟩) ∧
    evaluate_ticket "21579460" (some w5cache) wEnvDown =
      .ok (dictSet w5qaRec "status" (.pstr "from_cache"), some w5cache, ⟨false, false⟩) :=
  ⟨(claim5_cached_requests_idempotent "21579460" w5cache wEnvDown w5rec (by decide)).1
      (by decide),
   (claim5_cached_requests_idempotent "21579460" w5cache wEnvDown w5qaRec (by decide)).2
      (by decide)⟩

/-- Claim C6: serialization through the cache is lossless — `json.loads`
of `json.dumps` of a record dict is the record dict — and after writing a
summary record, reading the same key back through the endpoint yields the
record equal in every field except `status`, which becomes `from_cache`. -/
theorem claim6_cache_round_trip (tid : String) (c : Cache) (env : Env) (d : PyDict)
    (hnd : (d.map Prod.fst).Nodup) :
    loadsObj (dumpsObj d) = some d ∧
    get_summary tid (some (cset c ("summary:" ++ tid) (dumpsObj d))) env =
      .ok (dictSet d "status" (.pstr "from_cache"),
        some (cset c ("summary:" ++ tid) (dumpsObj d)), ⟨false, false⟩) ∧
    dictGet (dictSet d "status" (.pstr "from_cache")) "status" = some (.pstr "from_cache") ∧
    (∀ k, k ≠ "status" → dictGet (dictSet d "status" (.pstr "from_cache")) k = dictGet d k) :=
  ⟨loadsObj_dumpsObj d hnd,
   get_summary_hit tid _ env d (cget_cset_self c _ _) hnd,
   dictGet_dictSet_self d _ _,
   fun k hk => dictGet_dictSet_ne d _ k _ hk⟩

/-- Witness for claim C6 on a record with non-Latin text: the round trip
is exact and the Cyrillic fields survive the cache byte-for-byte. -/
theorem claim6_cache_round_trip_witness :
    loadsObj (dumpsObj w6rec) = some w6rec ∧
    get_summary "21579460" (some (cset [] ("summary:" ++ "21579460") (dumpsObj w6rec)))
        wEnvDown =
      .ok (dictSet w6rec "status" (.pstr "from_cache"),
        some (cset [] ("summary:" ++ "21579460") (dumpsObj w6rec)), ⟨false, false⟩) ∧
    dictGet (dictSet w6rec "status" (.pstr "from_cache")) "agent_name" =
      some (.pstr "Иван Иванов") := by
  have h := claim6_cache_round_trip "21579460" [] wEnvDown w6rec (by decide)
  refine ⟨h.1, h.2.1, ?name⟩
  rw [h.2.2.2 "agent_name" (by decide)]
  decide

/-- Claim C7, counterexample: with two assignment-change events inside the
same audit, the resolver returns the FIRST (earlier) one, not the later
one — the inner event scan runs forward and stops at the first hit. -/
theorem claim7_counterexample :
    (parse_ticket_data c7Data).assignee = some (.vint 1) ∧
    findAssigneeInEvents [c7AssignEv 1, c7AssignEv 2] = some (.vint 1) ∧
    some (PyVal.vint 1) ≠ some (PyVal.vint 2) :=
  ⟨by decide, by decide, by decide⟩

/-- Claim C7 as amended: with no truthy assignee in the ticket header, the
resolver scans audits in reverse chronological order and returns what the
most recent audit carrying an assignment yields (audit `assignee` field
first, then `assignee_id`, then the FIRST matching field-change event of
that audit) — so of two assignment events in different audits the later
audit wins, while within one audit the first event wins. -/
theorem claim7_most_recent_audit_wins (t : Ticket) (users : List User)
    (pre post : List Audit) (a : Audit) (v : PyVal)
    (hT : optTruthy (pyOr t.assignee t.assignee_id) = false)
    (hA : auditAssignee a = some v)
    (hPost : ∀ b ∈ post, auditAssignee b = none) :
    (parse_ticket_data ⟨t, users, pre ++ a :: post⟩).assignee = some v ∧
    (∀ au : Audit, optTruthy au.assignee = false → optTruthy au.assignee_id = false →
      auditAssignee au = findAssigneeInEvents au.events) ∧
    (∀ (evs1 : List Event) (ev : Event) (evs2 : List Event),
      findAssigneeInEvents evs1 = none →
      ((ev.field_name == some "assignee" || ev.field_name == some "assignee_id") &&
        optTruthy ev.value) = true →
      findAssigneeInEvents (evs1 ++ ev :: evs2) = ev.value) := by
  refine ⟨?main, ?within, findAssigneeInEvents_first⟩
  · have hfind : findAssigneeInAudits (pre ++ a :: post).reverse = some v := by
      rw [findAssigneeInAudits_findSome, List.reverse_append]
      rw [show (a :: post).reverse = post.reverse ++ [a] by simp]
      rw [List.append_assoc, List.findSome?_append]
      have hnone : post.reverse.findSome? auditAssignee = none := by
        rw [List.findSome?_eq_none_iff]
        intro b hb
        exact hPost b (by simpa using hb)
      rw [hnone]
      rw [show (([a] ++ pre.reverse).findSome? auditAssignee) = some v by
        rw [List.singleton_append, List.findSome?_cons, hA]]
      rfl
    simp only [parse_ticket_data]
    rw [if_neg (by simp [hT]), hfind]
  · intro au h1 h2
    unfold auditAssignee
    rw [if_neg (by simp [h1]), if_neg (by simp [h2])]

/-- Witness for the amended claim C7: of two single-event audits carrying
assignments 1 and then 2, the resolver returns 2 (the later audit wins). -/
theorem claim7_most_recent_audit_wins_witness :
    (parse_ticket_data ⟨⟨none, none⟩, [], [c7AuditOf 1] ++ c7AuditOf 2 :: []⟩).assignee =
      some (.vint 2) :=
  (claim7_most_recent_audit_wins ⟨none, none⟩ [] [c7AuditOf 1] [] (c7AuditOf 2) (.vint 2)
    (by decide) (by decide) (by decide)).1

/-- Claim C8: the analytics scan flags a record exactly when its `errors`
list is truthy, or `tov_score` is below 4, or `solution_score` is below 4;
on the three-record fixture it returns exactly the second and third
records with count 2, and with no matching record it returns the empty
collection with count 0. -/
theorem claim8_flagged_scan :
    (∀ d : PyDict, flagged d = true ↔
      ((dictGet d "errors").elim false Prim.truthy = true ∨
        scoreD d "tov_score" < 4 ∨ scoreD d "solution_score" < 4)) ∧
    get_errors (some c8cache) = .result 2 [c8rec2, c8rec3] ∧
    get_errors (some c8cacheClean) = .result 0 [] := by
  refine ⟨?iff, by decide, by decide⟩
  intro d
  unfold flagged
  simp only [Bool.or_eq_true, decide_eq_true_eq]
  tauto

/-- Witness for claim C8 applying the flagging characterization at a
record flagged only through its `errors` list. -/
theorem claim8_flagged_scan_witness : flagged c8rec3 = true :=
  (claim8_flagged_scan.1 c8rec3).mpr (Or.inl (by decide))

/-- Claim C9: when the metadata fetch succeeds but the audit fetch fails
(any non-200 status, transport error or undecodable body), the request
does not fail — the audit list degrades to empty, the transcript is
empty, and the endpoint returns the well-formed record with status
`empty`, having fetched but never called the generator; only a metadata
failure aborts the request, as HTTPException(500, "Network Error"). -/
theorem claim9_audit_failure_degrades (tid : String) (r : Option Cache) (env : Env)
    (tb : TicketBody)
    (hmiss : cacheHit r ("summary:" ++ tid) = none)
    (hfail : ∀ l, env.audits ≠ .resp 200 (some l))
    (hmeta : metaTryBody env.meta = .ok tb) :
    get_summary tid r env =
      .ok (emptySummaryDict tid (parse_ticket_data ⟨tb.ticket, tb.users, []⟩), r,
        ⟨true, false⟩) ∧
    dictGet (emptySummaryDict tid (parse_ticket_data ⟨tb.ticket, tb.users, []⟩)) "status" =
      some (.pstr "empty") ∧
    (∀ (env2 : Env) (e : MetaExc), metaTryBody env2.meta = .error e →
      get_summary tid r env2 = .error ⟨500, "Network Error"⟩) := by
  have hz : get_zendesk_data env.meta env.audits = .ok ⟨tb.ticket, tb.users, []⟩ := by
    unfold get_zendesk_data metadataResult
    rw [hmeta, auditsList_fail env.audits hfail]
  refine ⟨?ok, rfl, ?abort⟩
  · unfold get_summary
    rw [hmiss, hz]
    simp [parse_no_audits_dialogue]
  · intro env2 e hmeta2
    have hz2 : get_zendesk_data env2.meta env2.audits = .error ⟨500, "Network Error"⟩ := by
      unfold get_zendesk_data metadataResult
      rw [hmeta2]
    unfold get_summary
    rw [hmiss, hz2]

/-- Witness for claim C9: metadata up, audit fetch raising a timeout. -/
theorem claim9_audit_failure_degrades_witness :
    get_summary "1" none w9Env =
      .ok (emptySummaryDict "1" (parse_ticket_data ⟨aliceBody.ticket, aliceBody.users, []⟩),
        none, ⟨true, false⟩) ∧
    get_summary "1" none wEnvDown = .error ⟨500, "Network Error"⟩ := by
  have h := claim9_audit_failure_degrades "1" none w9Env aliceBody (by decide)
    (fun l hcon => AuditsOutcome.noConfusion hcon) (by decide)
  exact ⟨h.1, h.2.2 wEnvDown (.otherExc "ConnectionTimeout") (by decide)⟩

/-- Claim C10: on a cache miss with a non-empty transcript and a failing
generator, both endpoints build the fallback record (summary: issue
`Error` and the exception text in `result`; evaluation: zero scores and
the exception text as the only entry of `errors`), tag it
`generated_new`, and WRITE IT TO THE CACHE — so every later request for
the ticket answers from the cache with that error record and status
`from_cache`, never retrying the generator, until the key is evicted. -/
theorem claim10_generator_failure_cached (tid : String) (c : Cache) (env : Env)
    (tb : TicketBody) (e : String) (P : ParseOut)
    (hmissS : cacheHit (some c) ("summary:" ++ tid) = none)
    (hmissE : cacheHit (some c) ("qa:" ++ tid) = none)
    (hmeta : metaTryBody env.meta = .ok tb)
    (hP : parse_ticket_data ⟨tb.ticket, tb.users, auditsList env.audits⟩ = P)
    (hdlg : P.dialogue ≠ "")
    (hai : env.ai = .error e) :
    (get_summary tid (some c) env =
      .ok (sFailDict tid e (pyValPrim P.assignee) P.agent_name,
        some (cset c ("summary:" ++ tid)
          (dumpsObj (sFailDict tid e (pyValPrim P.assignee) P.agent_name))), ⟨true, true⟩)) ∧
    (∀ env2 : Env,
      get_summary tid (some (cset c ("summary:" ++ tid)
          (dumpsObj (sFailDict tid e (pyValPrim P.assignee) P.agent_name)))) env2 =
        .ok (dictSet (sFailDict tid e (pyValPrim P.assignee) P.agent_name) "status"
            (.pstr "from_cache"),
          some (cset c ("summary:" ++ tid)
            (dumpsObj (sFailDict tid e (pyValPrim P.assignee) P.agent_name))),
          ⟨false, false⟩)) ∧
    (evaluate_ticket tid (some c) env =
      .ok (eFailDict tid e env.now (pyValPrim P.assignee) P.agent_name,
        some (cset c ("qa:" ++ tid)
          (dumpsObj (eFailDict tid e env.now (pyValPrim P.assignee) P.agent_name))),
        ⟨true, true⟩)) ∧
    (∀ env2 : Env,
      evaluate_ticket tid (some (cset c ("qa:" ++ tid)
          (dumpsObj (eFailDict tid e env.now (pyValPrim P.assignee) P.agent_name)))) env2 =
        .ok (dictSet (eFailDict tid e env.now (pyValPrim P.assignee) P.agent_name) "status"
            (.pstr "from_cache"),
          some (cset c ("qa:" ++ tid)
            (dumpsObj (eFailDict tid e env.now (pyValPrim P.assignee) P.agent_name))),
          ⟨false, false⟩)) ∧
    dictGet (sFailDict tid e (pyValPrim P.assignee) P.agent_name) "issue" =
      some (.pstr "Error") ∧
    dictGet (sFailDict tid e (pyValPrim P.assignee) P.agent_name) "result" =
      some (.pstr e) ∧
    dictGet (eFailDict tid e env.now (pyValPrim P.assignee) P.agent_name) "tov_score" =
      some (.pint 0) ∧
    dictGet (eFailDict tid e env.now (pyValPrim P.assignee) P.agent_name) "errors" =
      some (.parr [e]) ∧
    dictGet (sFailDict tid e (pyValPrim P.assignee) P.agent_name) "status" =
      some (.pstr "generated_new") := by
  have hz : get_zendesk_data env.meta env.audits =
      .ok ⟨tb.ticket, tb.users, auditsList env.audits⟩ := by
    unfold get_zendesk_data metadataResult
    rw [hmeta]
  refine ⟨?s1, ?s2, ?e1, ?e2, rfl, rfl, rfl, rfl, rfl⟩
  · unfold get_summary
    rw [hmissS, hz]
    simp only [hP]
    rw [if_neg hdlg, hai, summary_fail_update tid e P]
  · intro env2
    exact get_summary_hit tid _ env2 _ (cget_cset_self c _ _) (sFailDict_nodup _ _ _ _)
  · unfold evaluate_ticket
    rw [hmissE, hz]
    simp only [hP]
    rw [if_neg hdlg, hai, eval_fail_update tid e env.now P]
  · intro env2
    exact evaluate_ticket_hit tid _ env2 _ (cget_cset_self c _ _) (eFailDict_nodup _ _ _ _ _)

/-- Witness for claim C10: the generator raises, the error summary record
is cached, and the follow-up request with everything unreachable answers
from the cache. -/
theorem claim10_generator_failure_cached_witness :
    get_summary "1" (some []) w10Env =
      .ok (sFailDict "1" "503 Service Unavailable" (.pint 1) "Alice",
        some (cset [] ("summary:" ++ "1")
          (dumpsObj (sFailDict "1" "503 Service Unavailable" (.pint 1) "Alice"))),
        ⟨true, true⟩) ∧
    get_summary "1" (some (cset [] ("summary:" ++ "1")
        (dumpsObj (sFailDict "1" "503 Service Unavailable" (.pint 1) "Alice")))) wEnvDown =
      .ok (dictSet (sFailDict "1" "503 Service Unavailable" (.pint 1) "Alice") "status"
          (.pstr "from_cache"),
        some (cset [] ("summary:" ++ "1")
          (dumpsObj (sFailDict "1" "503 Service Unavailable" (.pint 1) "Alice"))),
        ⟨false, false⟩) := by
  have h := claim10_generator_failure_cached "1" [] w10Env aliceBody "503 Service Unavailable"
    (parse_ticket_data ⟨aliceBody.ticket, aliceBody.users, auditsList w10Env.audits⟩)
    (by decide) (by decide) (by decide) rfl (by decide) (by decide)
  exact ⟨h.1, h.2.1 wEnvDown⟩

end ZQA
